import Mathlib

/-
  Verification of the anonymous-credential and verifiable-voting engine
  (shuffled Merkle commitment registry, inclusion proofs, nullifier-gated
  credential issuance, vote ledger with grace period and consensus).

  Shallow embedding of the backend source:
  - `SHA256` implements `hashlib.sha256(...).hexdigest()` executably;
  - `Merkle` embeds `backend/utils/merkle_tree.py` (`MerkleTree._build_sha256_tree`,
    `VoterRegistry._get_sha256_proof`, `MerkleTree.build_tree`,
    `VoterRegistry.compute_voter_leaf`, and the `random.shuffle` call of
    `VoterRegistry.load_and_build`);
  - `Backend` embeds the database-facing handlers of `backend/main.py`
    (`zk_login`, `submit_vote`) over an explicit database state whose tables
    mirror `backend/models.py`.
-/

set_option linter.unusedVariables false

namespace SHA256

/-- The 64 round constants of SHA-256. -/
def K : List Nat :=
  [1116352408, 1899447441, 3049323471, 3921009573, 961987163, 1508970993,
   2453635748, 2870763221, 3624381080, 310598401, 607225278, 1426881987,
   1925078388, 2162078206, 2614888103, 3248222580, 3835390401, 4022224774,
   264347078, 604807628, 770255983, 1249150122, 1555081692, 1996064986,
   2554220882, 2821834349, 2952996808, 3210313671, 3336571891, 3584528711,
   113926993, 338241895, 666307205, 773529912, 1294757372, 1396182291,
   1695183700, 1986661051, 2177026350, 2456956037, 2730485921, 2820302411,
   3259730800, 3345764771, 3516065817, 3600352804, 4094571909, 275423344,
   430227734, 506948616, 659060556, 883997877, 958139571, 1322822218,
   1537002063, 1747873779, 1955562222, 2024104815, 2227730452, 2361852424,
   2428436474, 2756734187, 3204031479, 3329325298]

/-- Initial hash state. -/
def H0 : List Nat :=
  [1779033703, 3144134277, 1013904242, 2773480762,
   1359893119, 2600822924, 528734635, 1541459225]

def mask32 (x : Nat) : Nat := x % 4294967296

def add32 (a b : Nat) : Nat := mask32 (a + b)

def rotr (n x : Nat) : Nat := mask32 ((x >>> n) ||| (x <<< (32 - n)))

def bsig0 (x : Nat) : Nat := (rotr 2 x) ^^^ ((rotr 13 x) ^^^ (rotr 22 x))

def bsig1 (x : Nat) : Nat := (rotr 6 x) ^^^ ((rotr 11 x) ^^^ (rotr 25 x))

def ssig0 (x : Nat) : Nat := (rotr 7 x) ^^^ ((rotr 18 x) ^^^ (x >>> 3))

def ssig1 (x : Nat) : Nat := (rotr 17 x) ^^^ ((rotr 19 x) ^^^ (x >>> 10))

def ch (x y z : Nat) : Nat := (x &&& y) ^^^ ((x ^^^ 0xffffffff) &&& z)

def maj (x y z : Nat) : Nat := (x &&& y) ^^^ ((x &&& z) ^^^ (y &&& z))

/-- Big-endian byte list of width `n` for value `v`. -/
def toBytesBE (n v : Nat) : List Nat :=
  ((List.range n).reverse).map (fun i => (v >>> (8 * i)) % 256)

/-- SHA-256 message padding: append 0x80, zeros, then the 8-byte big-endian bit length. -/
def padMessage (msg : List Nat) : List Nat :=
  let len := msg.length
  let zeros := (119 - len % 64) % 64
  msg ++ [0x80] ++ List.replicate zeros 0 ++ toBytesBE 8 (len * 8)

/-- Group bytes into big-endian 32-bit words. -/
def bytesToWords : List Nat → List Nat
  | a :: b :: c :: d :: rest => (((a * 256 + b) * 256 + c) * 256 + d) :: bytesToWords rest
  | _ => []

/-- One extension step of the message schedule. -/
def scheduleStep (w : List Nat) : List Nat :=
  let t := w.length
  w ++ [add32 (add32 (ssig1 (w.getD (t - 2) 0)) (w.getD (t - 7) 0))
              (add32 (ssig0 (w.getD (t - 15) 0)) (w.getD (t - 16) 0))]

def buildSchedule : List Nat → Nat → List Nat
  | w, 0 => w
  | w, n + 1 => buildSchedule (scheduleStep w) n

/-- One round of the compression function on the 8-word working state. -/
def compressStep (s : List Nat) (kw : Nat × Nat) : List Nat :=
  match s with
  | [a, b, c, d, e, f, g, h] =>
    let t1 := add32 h (add32 (bsig1 e) (add32 (ch e f g) (add32 kw.1 kw.2)))
    let t2 := add32 (bsig0 a) (maj a b c)
    [add32 t1 t2, a, b, c, add32 d t1, e, f, g]
  | other => other

/-- Process one 64-byte block. -/
def compressBlock (hs : List Nat) (block : List Nat) : List Nat :=
  let w := buildSchedule (bytesToWords block) 48
  let s := (K.zip w).foldl compressStep hs
  (hs.zip s).map (fun p => add32 p.1 p.2)

/-- Split a byte list into 64-byte chunks (fuel-structured so the kernel can reduce it). -/
def chunk64Aux : Nat → List Nat → List (List Nat)
  | 0, _ => []
  | _, [] => []
  | fuel + 1, l => l.take 64 :: chunk64Aux fuel (l.drop 64)

def chunk64 (l : List Nat) : List (List Nat) := chunk64Aux l.length l

/-- SHA-256 of a byte list, as 32 bytes. -/
def sha256Bytes (msg : List Nat) : List Nat :=
  (((chunk64 (padMessage msg)).foldl compressBlock H0).map (toBytesBE 4)).flatten

def hexDigit (n : Nat) : Char := if n < 10 then Char.ofNat (48 + n) else Char.ofNat (87 + n)

def byteToHex (b : Nat) : List Char := [hexDigit (b / 16), hexDigit (b % 16)]

/-- UTF-8 encoding of one character. -/
def encodeChar (c : Char) : List Nat :=
  let n := c.toNat
  if n < 0x80 then [n]
  else if n < 0x800 then [0xC0 ||| (n >>> 6), 0x80 ||| (n &&& 0x3F)]
  else if n < 0x10000 then
    [0xE0 ||| (n >>> 12), 0x80 ||| ((n >>> 6) &&& 0x3F), 0x80 ||| (n &&& 0x3F)]
  else
    [0xF0 ||| (n >>> 18), 0x80 ||| ((n >>> 12) &&& 0x3F),
     0x80 ||| ((n >>> 6) &&& 0x3F), 0x80 ||| (n &&& 0x3F)]

/-- UTF-8 bytes of a string (Python `s.encode()`). -/
def strBytes (s : String) : List Nat := (s.data.map encodeChar).flatten

/-- Python `hashlib.sha256(s.encode()).hexdigest()`. -/
def sha256hex (s : String) : String := ⟨((sha256Bytes (strBytes s)).map byteToHex).flatten⟩

end SHA256

namespace Merkle

/-- Source `MerkleTree.hash_node`: `hashlib.sha256(data.encode()).hexdigest()`. -/
def hash_node (data : String) : String := SHA256.sha256hex data

/-- The `zero_hash = self.hash_node("")` value used to pad the leaf level. -/
def zeroHash : String := hash_node ""

/-- The literal `"0" * 64` used to pad proofs. -/
def zeros64 : String := "0000000000000000000000000000000000000000000000000000000000000000"

/-- One reduction level of `_build_sha256_tree`: hash adjacent pairs
    (`combined = self.hash_node(left + right)`).  The level always has even
    length there (padded to a power of two), so the one-element case never
    arises from the source code paths. -/
def combine : List String → List String
  | a :: b :: rest => hash_node (a ++ b) :: combine rest
  | _ => []

/-- The `while len(current_level) > 1` loop of `_build_sha256_tree`, collecting
    every level, fuel-structured so the kernel can reduce it.  `buildLevels`
    supplies enough fuel for any input. -/
def buildLevelsAux : Nat → List String → List (List String)
  | 0, level => [level]
  | fuel + 1, level =>
    if level.length ≤ 1 then [level] else level :: buildLevelsAux fuel (combine level)

def buildLevels (level : List String) : List (List String) := buildLevelsAux level.length level

/-- Reference form of the level-building loop, structured by the tree depth:
    `buildLevels` coincides with it whenever the level length is `2 ^ depth`
    (proved below), and all reasoning goes through this form. -/
def levelsOfDepth : Nat → List String → List (List String)
  | 0, level => [level]
  | k + 1, level => level :: levelsOfDepth k (combine level)

/-- Python `root = current_level[0] if current_level else ""` applied to the final
    level of the collected list. -/
def rootFromLevels (levels : List (List String)) : String :=
  (levels.getLastD []).headD ""

/-- Ceiling base-2 logarithm, fuel-structured so the kernel can reduce it;
    it agrees with `Nat.clog 2` (proved below). -/
def ceilLog2Aux : Nat → Nat → Nat
  | 0, _ => 0
  | fuel + 1, n => if n ≤ 1 then 0 else ceilLog2Aux fuel ((n + 1) / 2) + 1

def ceilLog2 (n : Nat) : Nat := ceilLog2Aux n n

/-- Python `2 ** math.ceil(math.log2(max(n, 1)))`. -/
def nextPow2 (n : Nat) : Nat := 2 ^ ceilLog2 (max n 1)

/-- The `tree` and `root` attributes a `MerkleTree` holds after building. -/
structure MerkleTreeState where
  tree : List (List String)
  root : String
deriving DecidableEq

/-- Source `MerkleTree._build_sha256_tree`: pad the leaves with `zero_hash` to the next
    power of two, build all levels, and take the root from the final level. -/
def buildSha256Tree (leaves : List String) : MerkleTreeState :=
  let n := leaves.length
  let padded := leaves ++ List.replicate (nextPow2 n - n) zeroHash
  let levels := buildLevels padded
  { tree := levels, root := rootFromLevels levels }

/-- Source `MerkleTree.build_tree`: with `n == 0` the root is the empty-string sentinel;
    in Poseidon mode the external helper outcome is `poseidonRoot` (`none`
    models the helper raising), and on failure the code falls back to the
    SHA-256 tree; with `use_poseidon` false it builds the SHA-256 tree directly.
    On Poseidon success only `root` is assigned and `tree` stays `[]`. -/
def build_tree (use_poseidon : Bool) (poseidonRoot : Option String)
    (leaves : List String) : MerkleTreeState :=
  if leaves.length = 0 then { tree := [], root := "" }
  else if use_poseidon then
    match poseidonRoot with
    | some r => { tree := [], root := r }
    | none => buildSha256Tree leaves
  else buildSha256Tree leaves

/-- Source `VoterRegistry.compute_voter_leaf`: in Poseidon mode the helper outcome is
    `poseidonLeaf` (`none` models the helper raising, which the bare
    `except: pass` swallows); any failure falls through to
    `MerkleTree.hash_node(voter_id)`. -/
def compute_voter_leaf (use_poseidon : Bool) (poseidonLeaf : Option String)
    (voter_id : String) : String :=
  if use_poseidon then
    match poseidonLeaf with
    | some leaf => leaf
    | none => hash_node voter_id
  else hash_node voter_id

/-- The loop body of `VoterRegistry._get_sha256_proof` over `tree[:-1]`:
    at each level take the sibling (`idx - 1` if the index is odd else
    `idx + 1`), defaulting to `"0" * 64` when the sibling index is out of
    range, emit path index 1 for a right child and 0 for a left child,
    and halve the index. -/
def siblingPath : List (List String) → Nat → List (String × Nat)
  | [], _ => []
  | level :: rest, idx =>
    let isRight := idx % 2 == 1
    let sibIdx := if isRight then idx - 1 else idx + 1
    (level.getD sibIdx zeros64, if isRight then 1 else 0) :: siblingPath rest (idx / 2)

/-- Source `VoterRegistry._get_sha256_proof` (`self.depth = 15`): `None` when the tree
    was never built, otherwise the sibling path over `tree[:-1]` padded with
    `("0" * 64, 0)` entries up to depth 15. -/
def getSha256Proof (t : MerkleTreeState) (leafIndex : Nat) : Option (List (String × Nat)) :=
  if t.tree = [] then none
  else
    let p := siblingPath t.tree.dropLast leafIndex
    some (p ++ List.replicate (15 - p.length) (zeros64, 0))

/-- Folding a sibling path against a leaf: path index 1 marks the current node
    as a right child (`parent = hash(sibling + current)`), 0 as a left child
    (`parent = hash(current + sibling)`). -/
def foldPath (leaf : String) (path : List (String × Nat)) : String :=
  path.foldl (fun acc e => if e.2 == 1 then hash_node (e.1 ++ acc) else hash_node (acc ++ e.1)) leaf

/-- Modelled from the spec: `verify(leaf, proof, claimed_root)` is not part of
    the backend source (clients and the circuit verify inclusion), so it is
    modelled from the spec: it folds the proof against the leaf in order and
    compares the result to the claimed root. -/
def verifyProof (leaf : String) (path : List (String × Nat)) (claimedRoot : String) : Bool :=
  foldPath leaf path == claimedRoot

/-- One swap `x[i], x[j] = x[j], x[i]`; out-of-range indices leave the list
    unchanged (the shuffle loop only ever produces in-range indices). -/
def pySwap (l : List String) (i j : Nat) : List String :=
  match l.get? i, l.get? j with
  | some a, some b => (l.set i b).set j a
  | _, _ => l

/-- The loop of `random.shuffle`: `for i in reversed(range(1, len(x)))`, swap
    `x[i]` with `x[j]` for `j = randbelow(i + 1)`.  `r` models the stream of
    raw random values the seeded generator yields; `r k % (k + 1)` is the
    `randbelow(i + 1)` outcome for swap index `k`, covering every possible
    draw and hence every seed. -/
def shuffleSteps (r : Nat → Nat) : Nat → List String → List String
  | 0, l => l
  | i + 1, l => shuffleSteps r i (pySwap l (i + 1) (r (i + 1) % (i + 2)))

/-- Python `random.seed(seed); random.shuffle(commitments)` in
    `VoterRegistry.load_and_build`, for an arbitrary seeded random stream. -/
def pyShuffle (r : Nat → Nat) (l : List String) : List String :=
  shuffleSteps r (l.length - 1) l

end Merkle

namespace Backend

/-- A row of `zk_credentials` (`models.ZKCredential`): unique `nullifier_hash`,
    the issued `credential_hash`, and the `is_valid` revocation flag. -/
structure ZKCredentialRec where
  nullifier_hash : String
  credential_hash : String
  is_valid : Bool
deriving DecidableEq

/-- A row of `manifestos` (`models.Manifesto`), restricted to the columns the
    voting engine reads: primary key `id`, `grace_period_end` (a timestamp,
    embedded as an integer), and the cached aggregates `vote_kept` and
    `vote_broken` (Python ints, embedded as integers). -/
structure ManifestoRec where
  id : Nat
  grace_period_end : Int
  vote_kept : Int
  vote_broken : Int
deriving DecidableEq

/-- A row of `manifesto_votes` (`models.ManifestoVote`): `manifesto_id`,
    `nullifier`, `vote_type`, `vote_hash`. -/
structure ManifestoVoteRec where
  manifesto_id : Nat
  nullifier : String
  vote_type : String
  vote_hash : String
deriving DecidableEq

/-- The relational state the two handlers read and write: the three tables,
    each as an ordered list of rows (`query(...).first()` takes the first
    match). -/
structure DBState where
  credentials : List ZKCredentialRec
  manifestos : List ManifestoRec
  votes : List ManifestoVoteRec
deriving DecidableEq

/-- Replace the first element satisfying `p` by its image under `f` — the
    effect of mutating the single ORM object returned by
    `query(...).filter(...).first()` and committing. -/
def updateFirst (p : α → Bool) (f : α → α) : List α → List α
  | [] => []
  | x :: xs => if p x then f x :: xs else x :: updateFirst p f xs

/-- Python truthiness of an optional string field (`None` and `""` are falsy). -/
def truthyOpt : Option String → Bool
  | some s => !s.isEmpty
  | none => false

/-- Model `ZKProofRequest` of `main.py`: the `proof` blob is carried but `zk_login`
    never inspects it. -/
structure ZKProofRequest where
  proof : String
  publicSignals : List String
  nullifier : Option String
  credential : Option String
  merkle_root : Option String
deriving DecidableEq

/-- The fields of `ZKProofResponse` that `zk_login` populates and the claims
    observe. -/
structure ZKLoginResponse where
  valid : Bool
  credential : Option String
  message : String
  used_votes : Option (List Nat)
deriving DecidableEq

/-- Python `request.credential or generate_credential()`: the client-supplied
    credential when truthy, else the fresh random token, `freshCred` here. -/
def chosenCredential (credOpt : Option String) (freshCred : String) : String :=
  match credOpt with
  | some s => if s.isEmpty then freshCred else s
  | none => freshCred

/-- Handler `zk_login` (`POST /api/zk/login`, `main.py`): resolve the nullifier and
    claimed root from the explicit fields or the legacy `publicSignals`
    format, reject a root that differs from the current registry root,
    return the existing credential (with the list of manifesto ids already
    voted on) when the nullifier is known, and otherwise store and return a
    credential — the client-supplied one if truthy, else the fresh random
    token `generate_credential()` yields, passed here as `freshCred`.
    The source never calls any zero-knowledge verifier on this path (its
    own comment flags this as an insecure MVP shortcut), which is why this
    embedding needs no verifier-outcome input. -/
def zk_login (currentRoot freshCred : String) (req : ZKProofRequest) (db : DBState) :
    ZKLoginResponse × DBState :=
  match (if truthyOpt req.nullifier && truthyOpt req.merkle_root then
           some (req.nullifier.getD "", req.merkle_root.getD "")
         else if 2 ≤ req.publicSignals.length then
           some (req.publicSignals.getD 0 "", req.publicSignals.getD 1 "")
         else none) with
  | none =>
    ({ valid := false, credential := none,
       message := "Invalid request: missing nullifier or merkle_root",
       used_votes := none }, db)
  | some (nullifier, clientRoot) =>
    if clientRoot ≠ currentRoot then
      ({ valid := false, credential := none,
         message := "Obsolete or invalid Merkle Root. Please refresh the page.",
         used_votes := none }, db)
    else
      match db.credentials.find? (fun c => c.nullifier_hash == nullifier) with
      | some existing =>
        ({ valid := true, credential := some existing.credential_hash,
           message := "Welcome back! Your credential has been restored.",
           used_votes := some ((db.votes.filter (fun v => v.nullifier == nullifier)).map
                                (fun v => v.manifesto_id)) }, db)
      | none =>
        let cred := chosenCredential req.credential freshCred
        ({ valid := true, credential := some cred,
           message := "Zero-knowledge proof verified. Anonymous credential issued.",
           used_votes := none },
         { db with credentials := db.credentials ++ [⟨nullifier, cred, true⟩] })

/-- Model `VoteRequest` of `main.py` (`proof` defaults to `""` and is unused). -/
structure VoteRequest where
  manifesto_id : Nat
  vote_type : String
  nullifier : String
  proof : String
deriving DecidableEq

/-- The failure modes of `submit_vote`: the three `HTTPException`s it raises
    plus the database CHECK-constraint violation `db.commit()` can raise. -/
inductive VoteError where
  | invalidNullifier
  | manifestoNotFound
  | votingNotOpen
  | checkViolation
deriving DecidableEq

/-- The `VoteResponse` fields the claims observe. -/
structure VoteSuccess where
  message : String
  changed : Bool
deriving DecidableEq

/-- Key of the `unique_vote_per_manifesto` constraint. -/
def voteKey (m : Nat) (n : String) (v : ManifestoVoteRec) : Bool :=
  v.manifesto_id == m && v.nullifier == n

/-- The `valid_vote_type` CHECK constraint of `manifesto_votes`. -/
def validVoteType (s : String) : Bool := s == "kept" || s == "broken"

/-- The application logic of `submit_vote` up to (but excluding) `db.commit()`:
    credential check, manifesto lookup, grace-period gate, then first vote /
    changed vote / unchanged resubmission, adjusting the cached aggregates
    exactly as the source does.  Returns the response, the post-transaction
    state, and the vote row inserted or updated (`none` when no vote row was
    written, i.e. on an unchanged resubmission). -/
def submit_vote_core (now : Int) (voteHash : String) (req : VoteRequest) (db : DBState) :
    Except VoteError (VoteSuccess × DBState × Option ManifestoVoteRec) :=
  match db.credentials.find? (fun c => c.nullifier_hash == req.nullifier && c.is_valid) with
  | none => .error .invalidNullifier
  | some _cred =>
    match db.manifestos.find? (fun m => m.id == req.manifesto_id) with
    | none => .error .manifestoNotFound
    | some manifesto =>
      if now < manifesto.grace_period_end then .error .votingNotOpen
      else
        match db.votes.find? (voteKey req.manifesto_id req.nullifier) with
        | some existing =>
          if existing.vote_type == req.vote_type then
            .ok ({ message := "Vote unchanged (same choice)", changed := false }, db, none)
          else
            let m1 := if existing.vote_type == "kept" then
                        { manifesto with vote_kept := manifesto.vote_kept - 1 }
                      else
                        { manifesto with vote_broken := manifesto.vote_broken - 1 }
            let m2 := if req.vote_type == "kept" then
                        { m1 with vote_kept := m1.vote_kept + 1 }
                      else
                        { m1 with vote_broken := m1.vote_broken + 1 }
            let newRow := { existing with vote_type := req.vote_type, vote_hash := voteHash }
            .ok ({ message := "Vote changed successfully", changed := true },
                 { db with
                   manifestos := updateFirst (fun m => m.id == req.manifesto_id)
                                   (fun _ => m2) db.manifestos,
                   votes := updateFirst (voteKey req.manifesto_id req.nullifier)
                              (fun v => { v with vote_type := req.vote_type,
                                                 vote_hash := voteHash }) db.votes },
                 some newRow)
        | none =>
          let newRow : ManifestoVoteRec :=
            ⟨req.manifesto_id, req.nullifier, req.vote_type, voteHash⟩
          let m2 := if req.vote_type == "kept" then
                      { manifesto with vote_kept := manifesto.vote_kept + 1 }
                    else
                      { manifesto with vote_broken := manifesto.vote_broken + 1 }
          .ok ({ message := "Vote recorded successfully", changed := false },
               { db with
                 manifestos := updateFirst (fun m => m.id == req.manifesto_id)
                                 (fun _ => m2) db.manifestos,
                 votes := db.votes ++ [newRow] },
               some newRow)

/-- Handler `submit_vote` (`POST /api/votes`, `main.py`) including `db.commit()`: the
    CHECK constraint `valid_vote_type` is evaluated by the database on the
    inserted or updated vote row at commit time; a violation aborts the
    transaction (the pre-transaction state stands). -/
def submit_vote (now : Int) (voteHash : String) (req : VoteRequest) (db : DBState) :
    Except VoteError (VoteSuccess × DBState) :=
  match submit_vote_core now voteHash req db with
  | .error e => .error e
  | .ok (res, db2, touched) =>
    match touched with
    | none => .ok (res, db2)
    | some row => if validVoteType row.vote_type then .ok (res, db2) else .error .checkViolation

/-- The cached counter of a manifesto that belongs to a choice string. -/
def counterFor (M : ManifestoRec) (choice : String) : Int :=
  if choice == "kept" then M.vote_kept else M.vote_broken

/-- The aggregate update a first vote applies to a manifesto row
    (the `vote.vote_type == "kept"` branch pair of the new-vote case). -/
def newVoteManifesto (M : ManifestoRec) (newType : String) : ManifestoRec :=
  if newType == "kept" then { M with vote_kept := M.vote_kept + 1 }
  else { M with vote_broken := M.vote_broken + 1 }

/-- The aggregate update a changed vote applies to a manifesto row:
    decrement the counter of the old choice, increment the counter of the
    new one (the two branch pairs of the changed-vote case). -/
def changedManifesto (M : ManifestoRec) (oldType newType : String) : ManifestoRec :=
  let m1 := if oldType == "kept" then { M with vote_kept := M.vote_kept - 1 }
            else { M with vote_broken := M.vote_broken - 1 }
  if newType == "kept" then { m1 with vote_kept := m1.vote_kept + 1 }
  else { m1 with vote_broken := m1.vote_broken + 1 }

/-- The database state a call leaves behind: the new state on success, the
    unchanged pre-transaction state on any error (rollback). -/
def voteResultState (r : Except VoteError (VoteSuccess × DBState)) (db : DBState) : DBState :=
  match r with
  | .ok (_, db2) => db2
  | .error _ => db

/-- All stored vote rows satisfy the `valid_vote_type` CHECK constraint. -/
def rowsValid (db : DBState) : Prop :=
  ∀ v ∈ db.votes, validVoteType v.vote_type = true

/-- Manifesto primary keys are distinct (the `id` column is the primary key). -/
def idsDistinct (db : DBState) : Prop :=
  (db.manifestos.map (fun m => m.id)).Nodup

/-- The cached aggregates equal the grouped counts of the stored vote rows. -/
def countersMatch (db : DBState) : Prop :=
  ∀ M ∈ db.manifestos,
    M.vote_kept =
      (db.votes.countP (fun v => v.manifesto_id == M.id && v.vote_type == "kept") : Int) ∧
    M.vote_broken =
      (db.votes.countP (fun v => v.manifesto_id == M.id && v.vote_type == "broken") : Int)

/-- The invariant every committed state satisfies. -/
def goodState (db : DBState) : Prop :=
  rowsValid db ∧ idsDistinct db ∧ countersMatch db

/-- The four consensus classes of the spec. -/
inductive ConsensusResult where
  | A
  | B
  | disputed
  | pending
deriving DecidableEq

/-- Modelled from the spec: the consensus classification
    `consensus(subject_id, threshold=0.6, min_sample)` is not implemented in
    the backend source (only the cached counters and the `status` column
    exist; tests and clients compute the percentages), so it is modelled from
    the spec: `pending` below `min_sample`, `A` / `B` when the respective
    ratio is at least `threshold` (the spec fixes the boundary comparison to
    be at-least), `disputed` otherwise, with ratios read as 0 when the total
    is 0 (which rational division by zero gives for free). -/
def consensus (threshold : ℚ) (minSample countA countB : Nat) : ConsensusResult :=
  let total := countA + countB
  if total < minSample then .pending
  else if threshold ≤ (countA : ℚ) / (total : ℚ) then .A
  else if threshold ≤ (countB : ℚ) / (total : ℚ) then .B
  else .disputed

end Backend

/-- Sanity check against the FIPS 180 test vector for the empty message. -/
theorem SHA256.sha256hex_empty_vector :
    SHA256.sha256hex "" = "e3b0c44298fc1c149afbf4c8996fb92427ae41e4649b934ca495991b7852b855" := by
  decide

/-- Sanity check against the FIPS 180 test vector for the message "abc". -/
theorem SHA256.sha256hex_abc_vector :
    SHA256.sha256hex "abc" = "ba7816bf8f01cfea414140de5dae2223b00361a396177a9cb410ff61f20015ad" := by
  decide

namespace Backend

/-- Structure of `updateFirst` when `find?` succeeds: the list splits around the
    first match, and `updateFirst` rewrites exactly that element. -/
theorem updateFirst_decomp {α : Type} {p : α → Bool} (f : α → α) {l : List α} {x : α}
    (h : l.find? p = some x) :
    ∃ l₁ l₂, l = l₁ ++ x :: l₂ ∧ (∀ y ∈ l₁, p y = false) ∧ p x = true ∧
      updateFirst p f l = l₁ ++ f x :: l₂ := by
  induction l with
  | nil => simp [List.find?] at h
  | cons a l ih =>
    by_cases hp : p a = true
    · rw [List.find?_cons_of_pos _ hp] at h
      obtain rfl : a = x := by injection h
      exact ⟨[], l, by simp, by simp, hp, by simp [updateFirst, hp]⟩
    · rw [List.find?_cons_of_neg _ hp] at h
      obtain ⟨l₁, l₂, hl, hall, hx, hu⟩ := ih h
      refine ⟨a :: l₁, l₂, by simp [hl], ?_, hx, by simp [updateFirst, hp, hu]⟩
      intro y hy
      rcases List.mem_cons.mp hy with rfl | hy
      · exact Bool.not_eq_true _ ▸ (by simpa using hp)
      · exact hall y hy

/-- Lemma: `find?` skips a prefix on which the predicate is everywhere false. -/
theorem find?_prefix_none {α : Type} {p : α → Bool} {l₁ : List α}
    (h : ∀ y ∈ l₁, p y = false) (l₂ : List α) :
    (l₁ ++ l₂).find? p = l₂.find? p := by
  rw [List.find?_append]
  have h1 : l₁.find? p = none := List.find?_eq_none.mpr (fun x hx => by simp [h x hx])
  simp [h1]

/-- A zero count forces `find?` to fail. -/
theorem find?_eq_none_of_countP_zero {α : Type} {p : α → Bool} {l : List α}
    (h : l.countP p = 0) : l.find? p = none :=
  List.find?_eq_none.mpr fun x hx => by
    have hx2 := List.countP_eq_zero.mp h x hx
    simpa using hx2

end Backend

namespace Merkle

/-- Function `ceilLog2Aux` agrees with `Nat.clog 2` whenever it has enough fuel. -/
theorem ceilLog2Aux_eq_clog : (fuel : Nat) → (n : Nat) → n ≤ fuel →
    ceilLog2Aux fuel n = Nat.clog 2 n
  | 0, n, h => by
    have : n = 0 := by omega
    subst this
    simp [ceilLog2Aux, Nat.clog_zero_right]
  | fuel + 1, n, h => by
    by_cases h1 : n ≤ 1
    · simp [ceilLog2Aux, h1, Nat.clog_of_right_le_one h1]
    · have h2 : 2 ≤ n := by omega
      have hrec : (n + 1) / 2 ≤ fuel := by omega
      have hform : (n + 2 - 1) / 2 = (n + 1) / 2 := by omega
      rw [Nat.clog_of_two_le (by norm_num) h2, hform,
        ← ceilLog2Aux_eq_clog fuel ((n + 1) / 2) hrec]
      simp [ceilLog2Aux, h1]

theorem ceilLog2_eq_clog (n : Nat) : ceilLog2 n = Nat.clog 2 n :=
  ceilLog2Aux_eq_clog n n le_rfl

/-- A combined level is half as long. -/
theorem combine_length : (l : List String) → (combine l).length = l.length / 2
  | [] => by simp [combine]
  | [a] => by simp [combine]
  | a :: b :: rest => by
    simp [combine, combine_length rest]
    omega

/-- A default value is irrelevant at an in-range index. -/
theorem getD_default_irrel (l : List String) (i : Nat) (h : i < l.length) (d d2 : String) :
    l.getD i d = l.getD i d2 := by
  simp [List.getD, List.getElem?_eq_getElem h]

/-- Entry `j` of a combined level hashes entries `2j` and `2j + 1` of the level. -/
theorem combine_getD : (l : List String) → (j : Nat) → j < l.length / 2 →
    (combine l).getD j "" = hash_node (l.getD (2 * j) "" ++ l.getD (2 * j + 1) "")
  | [], j, h => by simp only [List.length_nil] at h; omega
  | [a], j, h => by simp only [List.length_cons, List.length_nil] at h; omega
  | a :: b :: rest, 0, h => by simp [combine]
  | a :: b :: rest, j + 1, h => by
    have hr : j < rest.length / 2 := by
      simp only [List.length_cons] at h
      omega
    have e1 : 2 * (j + 1) = (2 * j) + 1 + 1 := by ring
    have e2 : 2 * (j + 1) + 1 = (2 * j + 1) + 1 + 1 := by ring
    simp only [combine, e1, e2, List.getD_cons_succ]
    exact combine_getD rest j hr

/-- With enough fuel the level loop agrees with the depth-structured form. -/
theorem buildLevelsAux_levelsOfDepth : (k fuel : Nat) → (level : List String) →
    level.length = 2 ^ k → k ≤ fuel → buildLevelsAux fuel level = levelsOfDepth k level
  | 0, fuel, level, h, hf => by
    cases fuel with
    | zero => simp [buildLevelsAux, levelsOfDepth]
    | succ f =>
      have : level.length ≤ 1 := by omega
      simp [buildLevelsAux, levelsOfDepth, this]
  | k + 1, fuel, level, h, hf => by
    cases fuel with
    | zero => omega
    | succ f =>
      have h2 : 1 < 2 ^ (k + 1) := Nat.one_lt_two_pow (by omega)
      have hlen : ¬ level.length ≤ 1 := by omega
      have hc : (combine level).length = 2 ^ k := by
        rw [combine_length, h, pow_succ]
        omega
      simp only [buildLevelsAux, if_neg hlen, levelsOfDepth]
      exact congrArg _ (buildLevelsAux_levelsOfDepth k f (combine level) hc (by omega))

/-- Function `buildLevels` computes the depth-structured levels on power-of-two input. -/
theorem buildLevels_eq {k : Nat} {level : List String} (h : level.length = 2 ^ k) :
    buildLevels level = levelsOfDepth k level :=
  buildLevelsAux_levelsOfDepth k level.length level h
    (h ▸ Nat.le_of_lt (Nat.lt_two_pow k))

theorem levelsOfDepth_ne_nil (k : Nat) (level : List String) : levelsOfDepth k level ≠ [] := by
  cases k <;> simp [levelsOfDepth]

/-- The root ignores a prepended level as long as more levels follow. -/
theorem rootFromLevels_cons {rest : List (List String)} (h : rest ≠ []) (lv : List String) :
    rootFromLevels (lv :: rest) = rootFromLevels rest := by
  unfold rootFromLevels
  rw [List.getLastD_cons]
  cases rest with
  | nil => exact absurd rfl h
  | cons a t => rw [List.getLastD_cons, List.getLastD_cons]

theorem siblingPath_length : (levels : List (List String)) → (idx : Nat) →
    (siblingPath levels idx).length = levels.length
  | [], _ => rfl
  | lv :: rest, idx => by simp [siblingPath, siblingPath_length rest]

/-- Folding the sibling path of the unpadded levels reproduces the root:
    the completeness induction over the tree depth. -/
theorem foldPath_levelsOfDepth : (k : Nat) → (level : List String) → (idx : Nat) →
    (h : level.length = 2 ^ k) → (hidx : idx < level.length) →
    foldPath (level.getD idx "") (siblingPath (levelsOfDepth k level).dropLast idx)
      = rootFromLevels (levelsOfDepth k level)
  | 0, level, idx, h, hidx => by
    match level, h with
    | [x], _ =>
      have : idx = 0 := by omega
      subst this
      simp [levelsOfDepth, rootFromLevels, siblingPath, foldPath]
  | k + 1, level, idx, h, hidx => by
    have hne := levelsOfDepth_ne_nil k (combine level)
    have hc : (combine level).length = 2 ^ k := by
      rw [combine_length, h, pow_succ]
      omega
    have heven : level.length % 2 = 0 := by
      rw [h, pow_succ]
      omega
    have hhalf : idx / 2 < (combine level).length := by
      rw [hc]
      rw [h, pow_succ] at hidx
      omega
    have hstep :
        (if ((idx % 2 == 1 : Bool) = true) then
           hash_node (level.getD (idx - 1) zeros64 ++ level.getD idx "")
         else
           hash_node (level.getD idx "" ++ level.getD (idx + 1) zeros64))
          = (combine level).getD (idx / 2) "" := by
      rw [combine_getD level (idx / 2) (by rw [← combine_length]; exact hhalf)]
      by_cases hpar : idx % 2 = 1
      · have e1 : 2 * (idx / 2) = idx - 1 := by omega
        have e2 : 2 * (idx / 2) + 1 = idx := by omega
        have hlt : idx - 1 < level.length := by omega
        rw [if_pos (by simpa using hpar), e2, e1,
            getD_default_irrel level (idx - 1) hlt zeros64 ""]
      · have hpar0 : idx % 2 = 0 := by omega
        have e1 : 2 * (idx / 2) = idx := by omega
        have e2 : 2 * (idx / 2) + 1 = idx + 1 := by omega
        have hlt : idx + 1 < level.length := by omega
        rw [if_neg (by simpa using hpar), e2, e1,
            getD_default_irrel level (idx + 1) hlt zeros64 ""]
    calc foldPath (level.getD idx "")
            (siblingPath (levelsOfDepth (k + 1) level).dropLast idx)
        = foldPath ((combine level).getD (idx / 2) "")
            (siblingPath (levelsOfDepth k (combine level)).dropLast (idx / 2)) := by
          simp only [levelsOfDepth, List.dropLast_cons_of_ne_nil hne, siblingPath, foldPath,
            List.foldl_cons]
          rw [← hstep]
          rcases Nat.lt_or_ge (idx % 2) 1 with hp | hp
          · have : idx % 2 = 0 := by omega
            simp [this, foldPath]
          · have : idx % 2 = 1 := by omega
            simp [this, foldPath]
      _ = rootFromLevels (levelsOfDepth k (combine level)) :=
          foldPath_levelsOfDepth k (combine level) (idx / 2) hc hhalf
      _ = rootFromLevels (levelsOfDepth (k + 1) level) :=
          (rootFromLevels_cons hne level).symm

end Merkle

namespace Merkle

/-- The padded leaf level has power-of-two length `2 ^ clog 2 (max n 1)`. -/
theorem padded_length (L : List String) :
    (L ++ List.replicate (nextPow2 L.length - L.length) zeroHash).length
      = 2 ^ Nat.clog 2 (max L.length 1) := by
  have hle : L.length ≤ 2 ^ Nat.clog 2 (max L.length 1) := by
    rcases Nat.eq_zero_or_pos L.length with h0 | hp
    · rw [h0]
      exact Nat.zero_le _
    · have hmax : max L.length 1 = L.length := by omega
      rw [hmax]
      exact Nat.le_pow_clog (by norm_num) _
  simp only [List.length_append, List.length_replicate, nextPow2, ceilLog2_eq_clog]
  omega

/-- Completeness of the SHA-256 tree: folding the unpadded sibling path
    (one entry per level below the root) against leaf `i` reproduces the
    root, for every leaf list and in-range index. -/
theorem sha256_tree_complete (L : List String) (i : Nat) (hi : i < L.length) :
    foldPath (L.getD i "") (siblingPath (buildSha256Tree L).tree.dropLast i)
      = (buildSha256Tree L).root := by
  have hlen := padded_length L
  have hi2 : i < (L ++ List.replicate (nextPow2 L.length - L.length) zeroHash).length := by
    simp only [List.length_append]
    omega
  have hgetD : (L ++ List.replicate (nextPow2 L.length - L.length) zeroHash).getD i ""
      = L.getD i "" := by
    simp [List.getD, List.getElem?_append_left hi]
  have hmain := foldPath_levelsOfDepth (Nat.clog 2 (max L.length 1))
    (L ++ List.replicate (nextPow2 L.length - L.length) zeroHash) i hlen hi2
  simp only [buildSha256Tree, buildLevels_eq hlen]
  rw [← hgetD]
  exact hmain

/-- The tree built by `buildSha256Tree` always has at least one level. -/
theorem buildSha256Tree_tree_ne_nil (L : List String) : (buildSha256Tree L).tree ≠ [] := by
  have hlen := padded_length L
  simp only [buildSha256Tree, buildLevels_eq hlen]
  exact levelsOfDepth_ne_nil _ _

/-- The proof returned by `_get_sha256_proof` is the unpadded sibling path
    followed by zero-sibling padding entries up to depth 15. -/
theorem getSha256Proof_eq (L : List String) (i : Nat) :
    getSha256Proof (buildSha256Tree L) i
      = some (siblingPath (buildSha256Tree L).tree.dropLast i
          ++ List.replicate (15 - (siblingPath (buildSha256Tree L).tree.dropLast i).length)
              (zeros64, 0)) := by
  simp only [getSha256Proof, if_neg (buildSha256Tree_tree_ne_nil L)]

/-- The first `height` entries of the returned proof are exactly the unpadded
    sibling path (`height` being the number of levels below the root). -/
theorem getSha256Proof_take (L : List String) (i : Nat) (p : List (String × Nat))
    (hp : getSha256Proof (buildSha256Tree L) i = some p) :
    p.take ((buildSha256Tree L).tree.length - 1)
      = siblingPath (buildSha256Tree L).tree.dropLast i := by
  rw [getSha256Proof_eq] at hp
  have hlen : (siblingPath (buildSha256Tree L).tree.dropLast i).length
      = (buildSha256Tree L).tree.length - 1 := by
    rw [siblingPath_length, List.length_dropLast]
  obtain rfl : p = siblingPath (buildSha256Tree L).tree.dropLast i
      ++ List.replicate (15 - (siblingPath (buildSha256Tree L).tree.dropLast i).length)
          (zeros64, 0) := by
    injection hp.symm
  rw [← hlen, List.take_left]

/-- One guarded swap keeps the list a permutation of itself. -/
theorem extract_cons_perm {α : Type} : (t : List α) → (m : Nat) → (hm : m < t.length) →
    (a : α) → (t.get ⟨m, hm⟩ :: t.set m a).Perm (a :: t)
  | b :: t, 0, _, a => by
    simpa [List.set] using List.Perm.swap a b t
  | b :: t, m + 1, hm, a => by
    have hmt : m < t.length := by
      simp only [List.length_cons] at hm
      omega
    have e : ((b :: t).get ⟨m + 1, hm⟩ :: (b :: t).set (m + 1) a)
        = (t.get ⟨m, hmt⟩ :: b :: t.set m a) := by simp [List.set]
    rw [e]
    exact (List.Perm.swap b _ _).trans
      (((extract_cons_perm t m hmt a).cons b).trans (List.Perm.swap a b t))

/-- Exchanging two in-range positions permutes the list. -/
theorem set_set_perm {α : Type} : (l : List α) → (i j : Nat) → (hi : i < l.length) →
    (hj : j < l.length) →
    ((l.set i (l.get ⟨j, hj⟩)).set j (l.get ⟨i, hi⟩)).Perm l
  | a :: t, 0, 0, _, _ => by simp [List.set]
  | a :: t, 0, m + 1, hi, hj => by
    have hmt : m < t.length := by
      simp only [List.length_cons] at hj
      omega
    have e : ((a :: t).set 0 ((a :: t).get ⟨m + 1, hj⟩)).set (m + 1) ((a :: t).get ⟨0, hi⟩)
        = (t.get ⟨m, hmt⟩ :: t.set m a) := by simp [List.set]
    rw [e]
    exact extract_cons_perm t m hmt a
  | a :: t, s + 1, 0, hi, hj => by
    have hst : s < t.length := by
      simp only [List.length_cons] at hi
      omega
    have e : ((a :: t).set (s + 1) ((a :: t).get ⟨0, hj⟩)).set 0 ((a :: t).get ⟨s + 1, hi⟩)
        = (t.get ⟨s, hst⟩ :: t.set s a) := by simp [List.set]
    rw [e]
    exact extract_cons_perm t s hst a
  | a :: t, s + 1, m + 1, hi, hj => by
    have hst : s < t.length := by
      simp only [List.length_cons] at hi
      omega
    have hmt : m < t.length := by
      simp only [List.length_cons] at hj
      omega
    have e : ((a :: t).set (s + 1) ((a :: t).get ⟨m + 1, hj⟩)).set (m + 1) ((a :: t).get ⟨s + 1, hi⟩)
        = (a :: (t.set s (t.get ⟨m, hmt⟩)).set m (t.get ⟨s, hst⟩)) := by simp [List.set]
    rw [e]
    exact (set_set_perm t s m hst hmt).cons a

/-- Swap step `pySwap` is a permutation. -/
theorem pySwap_perm (l : List String) (i j : Nat) : (pySwap l i j).Perm l := by
  unfold pySwap
  cases hgi : l.get? i with
  | none => exact List.Perm.refl l
  | some a =>
    cases hgj : l.get? j with
    | none => exact List.Perm.refl l
    | some b =>
      obtain ⟨hi, rfl⟩ := List.get?_eq_some.mp hgi
      obtain ⟨hj, rfl⟩ := List.get?_eq_some.mp hgj
      exact set_set_perm l i j hi hj

/-- Every prefix of shuffle steps is a permutation. -/
theorem shuffleSteps_perm (r : Nat → Nat) : (n : Nat) → (l : List String) →
    (shuffleSteps r n l).Perm l
  | 0, l => List.Perm.refl l
  | n + 1, l =>
    (shuffleSteps_perm r n (pySwap l (n + 1) (r (n + 1) % (n + 2)))).trans
      (pySwap_perm l (n + 1) (r (n + 1) % (n + 2)))

/-- The seeded shuffle is a permutation of its input. -/
theorem pyShuffle_perm (r : Nat → Nat) (l : List String) : (pyShuffle r l).Perm l :=
  shuffleSteps_perm r (l.length - 1) l

end Merkle

namespace Backend

/-- First-vote branch of `submit_vote_core` in closed form. -/
theorem submit_vote_core_new (now : Int) (voteHash : String) (req : VoteRequest) (db : DBState)
    {c : ZKCredentialRec} {M : ManifestoRec}
    (hc : db.credentials.find? (fun c => c.nullifier_hash == req.nullifier && c.is_valid)
            = some c)
    (hm : db.manifestos.find? (fun m => m.id == req.manifesto_id) = some M)
    (hg : M.grace_period_end ≤ now)
    (hnov : db.votes.find? (voteKey req.manifesto_id req.nullifier) = none) :
    submit_vote_core now voteHash req db =
      .ok ({ message := "Vote recorded successfully", changed := false },
           { db with
             manifestos := updateFirst (fun m => m.id == req.manifesto_id)
               (fun _ => newVoteManifesto M req.vote_type) db.manifestos,
             votes := db.votes ++ [⟨req.manifesto_id, req.nullifier, req.vote_type, voteHash⟩] },
           some ⟨req.manifesto_id, req.nullifier, req.vote_type, voteHash⟩) := by
  unfold submit_vote_core
  simp only [hc, hm]
  rw [if_neg (not_lt.mpr hg)]
  simp only [hnov]
  rfl

/-- Changed-vote branch of `submit_vote_core` in closed form. -/
theorem submit_vote_core_changed (now : Int) (voteHash : String) (req : VoteRequest)
    (db : DBState) {c : ZKCredentialRec} {M : ManifestoRec} {ex : ManifestoVoteRec}
    (hc : db.credentials.find? (fun c => c.nullifier_hash == req.nullifier && c.is_valid)
            = some c)
    (hm : db.manifestos.find? (fun m => m.id == req.manifesto_id) = some M)
    (hg : M.grace_period_end ≤ now)
    (hov : db.votes.find? (voteKey req.manifesto_id req.nullifier) = some ex)
    (hdiff : ¬ ex.vote_type = req.vote_type) :
    submit_vote_core now voteHash req db =
      .ok ({ message := "Vote changed successfully", changed := true },
           { db with
             manifestos := updateFirst (fun m => m.id == req.manifesto_id)
               (fun _ => changedManifesto M ex.vote_type req.vote_type) db.manifestos,
             votes := updateFirst (voteKey req.manifesto_id req.nullifier)
               (fun v => { v with vote_type := req.vote_type, vote_hash := voteHash })
               db.votes },
           some { ex with vote_type := req.vote_type, vote_hash := voteHash }) := by
  unfold submit_vote_core
  simp only [hc, hm]
  rw [if_neg (not_lt.mpr hg)]
  simp only [hov, beq_iff_eq, if_neg hdiff]
  simp only [changedManifesto, beq_iff_eq]

/-- Unchanged-resubmission branch of `submit_vote_core` in closed form. -/
theorem submit_vote_core_unchanged (now : Int) (voteHash : String) (req : VoteRequest)
    (db : DBState) {c : ZKCredentialRec} {M : ManifestoRec} {ex : ManifestoVoteRec}
    (hc : db.credentials.find? (fun c => c.nullifier_hash == req.nullifier && c.is_valid)
            = some c)
    (hm : db.manifestos.find? (fun m => m.id == req.manifesto_id) = some M)
    (hg : M.grace_period_end ≤ now)
    (hov : db.votes.find? (voteKey req.manifesto_id req.nullifier) = some ex)
    (heq : ex.vote_type = req.vote_type) :
    submit_vote_core now voteHash req db =
      .ok ({ message := "Vote unchanged (same choice)", changed := false }, db, none) := by
  unfold submit_vote_core
  simp only [hc, hm]
  rw [if_neg (not_lt.mpr hg)]
  simp only [hov, beq_iff_eq, if_pos heq]

/-- Grace-period rejection of `submit_vote_core` in closed form. -/
theorem submit_vote_core_notopen (now : Int) (voteHash : String) (req : VoteRequest)
    (db : DBState) {c : ZKCredentialRec} {M : ManifestoRec}
    (hc : db.credentials.find? (fun c => c.nullifier_hash == req.nullifier && c.is_valid)
            = some c)
    (hm : db.manifestos.find? (fun m => m.id == req.manifesto_id) = some M)
    (hg : now < M.grace_period_end) :
    submit_vote_core now voteHash req db = .error .votingNotOpen := by
  unfold submit_vote_core
  simp only [hc, hm]
  rw [if_pos hg]

end Backend

namespace Backend

theorem countP_append_single {α : Type} (l : List α) (x : α) (q : α → Bool) :
    (l ++ [x]).countP q = l.countP q + (if q x then 1 else 0) := by
  rw [List.countP_append]
  simp [List.countP_cons]

/-- How a count changes when `updateFirst` rewrites the first match. -/
theorem countP_update_single {α : Type} {l : List α} {x : α} {p : α → Bool} {f : α → α}
    (hov : l.find? p = some x) (q : α → Bool) :
    (updateFirst p f l).countP q + (if q x then 1 else 0)
      = l.countP q + (if q (f x) then 1 else 0) := by
  obtain ⟨l₁, l₂, hl, hall, hpx, hu⟩ := updateFirst_decomp f hov
  rw [hu, hl]
  simp only [List.countP_append, List.countP_cons]
  omega

theorem id_newVoteManifesto (M : ManifestoRec) (t : String) :
    (newVoteManifesto M t).id = M.id := by
  unfold newVoteManifesto
  split <;> rfl

theorem id_changedManifesto (M : ManifestoRec) (o t : String) :
    (changedManifesto M o t).id = M.id := by
  unfold changedManifesto
  split <;> split <;> rfl

theorem validVoteType_cases {s : String} (h : validVoteType s = true) :
    s = "kept" ∨ s = "broken" := by
  simpa [validVoteType] using h

/-- Manifesto rows listed after the first row with a given id have other ids. -/
theorem ids_ne_of_mid {l₁ l₂ : List ManifestoRec} {M : ManifestoRec}
    (hid : ((l₁ ++ M :: l₂).map (fun m => m.id)).Nodup) :
    ∀ M2 ∈ l₂, M2.id ≠ M.id := by
  intro M2 h2
  rw [List.map_append, List.map_cons] at hid
  have hnm := (List.nodup_cons.mp hid.of_append_right).1
  intro hEq
  exact hnm (hEq ▸ List.mem_map_of_mem (fun m => m.id) h2)

/-- Inserting a first vote row while bumping the counter of the matching manifesto
    preserves the invariant. -/
theorem goodState_insert (db : DBState) (M : ManifestoRec) (mId : Nat) (n vt vh : String)
    (hm : db.manifestos.find? (fun m => m.id == mId) = some M)
    (hgood : goodState db) (hvt : validVoteType vt = true) :
    goodState { db with
      manifestos := updateFirst (fun m => m.id == mId) (fun _ => newVoteManifesto M vt)
        db.manifestos,
      votes := db.votes ++ [⟨mId, n, vt, vh⟩] } := by
  obtain ⟨hrv, hid, hcm⟩ := hgood
  obtain ⟨l₁, l₂, hl, hall, hpx, hu⟩ :=
    updateFirst_decomp (fun _ => newVoteManifesto M vt) hm
  have hMid : M.id = mId := by simpa using hpx
  refine ⟨?_, ?_, ?_⟩
  · intro v hv
    rcases List.mem_append.mp hv with h | h
    · exact hrv v h
    · simp only [List.mem_singleton] at h
      subst h
      exact hvt
  · unfold idsDistinct at hid ⊢
    simp only [hu]
    rw [hl] at hid
    simpa only [List.map_append, List.map_cons, id_newVoteManifesto] using hid
  · intro M2 hM2
    simp only [hu] at hM2
    rcases List.mem_append.mp hM2 with h1 | h12
    · have hne : M2.id ≠ mId := by simpa using hall M2 h1
      have hMem : M2 ∈ db.manifestos := by
        rw [hl]
        exact List.mem_append_left _ h1
      obtain ⟨hk, hb⟩ := hcm M2 hMem
      have hne2 : (mId == M2.id) = false := beq_eq_false_iff_ne.mpr (Ne.symm hne)
      constructor
      · rw [countP_append_single]
        simpa [hne2] using hk
      · rw [countP_append_single]
        simpa [hne2] using hb
    · rcases List.mem_cons.mp h12 with h2 | h2
      · subst h2
        have hMem : M ∈ db.manifestos := by
          rw [hl]
          exact List.mem_append_right _ (List.mem_cons_self _ _)
        obtain ⟨hk, hb⟩ := hcm M hMem
        rcases validVoteType_cases hvt with hv | hv <;> subst hv <;> constructor
        · rw [countP_append_single]
          simp only [newVoteManifesto] at hk ⊢
          simp [hMid] at hk ⊢
          omega
        · rw [countP_append_single]
          simp only [newVoteManifesto] at hb ⊢
          simp [hMid] at hb ⊢
          omega
        · rw [countP_append_single]
          simp only [newVoteManifesto] at hk ⊢
          simp [hMid] at hk ⊢
          omega
        · rw [countP_append_single]
          simp only [newVoteManifesto] at hb ⊢
          simp [hMid] at hb ⊢
          omega
      · have hid2 : ((l₁ ++ M :: l₂).map (fun m => m.id)).Nodup := by
          unfold idsDistinct at hid
          rw [hl] at hid
          exact hid
        have hne : M2.id ≠ mId := hMid ▸ ids_ne_of_mid hid2 M2 h2
        have hMem : M2 ∈ db.manifestos := by
          rw [hl]
          exact List.mem_append_right _ (List.mem_cons_of_mem _ h2)
        obtain ⟨hk, hb⟩ := hcm M2 hMem
        have hne2 : (mId == M2.id) = false := beq_eq_false_iff_ne.mpr (Ne.symm hne)
        constructor
        · rw [countP_append_single]
          simpa [hne2] using hk
        · rw [countP_append_single]
          simpa [hne2] using hb

end Backend

namespace Backend

/-- Rewriting an existing vote row to a new choice while moving the matching
    count of the matching manifesto from the old counter to the new one preserves the
    invariant. -/
theorem goodState_change (db : DBState) (M : ManifestoRec) (mId : Nat) (n vt vh : String)
    (ex : ManifestoVoteRec)
    (hm : db.manifestos.find? (fun m => m.id == mId) = some M)
    (hov : db.votes.find? (voteKey mId n) = some ex)
    (hgood : goodState db) (hvt : validVoteType vt = true)
    (hdiff : ¬ ex.vote_type = vt) :
    goodState { db with
      manifestos := updateFirst (fun m => m.id == mId)
        (fun _ => changedManifesto M ex.vote_type vt) db.manifestos,
      votes := updateFirst (voteKey mId n)
        (fun v => { v with vote_type := vt, vote_hash := vh }) db.votes } := by
  obtain ⟨hrv, hid, hcm⟩ := hgood
  obtain ⟨l₁, l₂, hl, hall, hpx, hu⟩ :=
    updateFirst_decomp (fun _ => changedManifesto M ex.vote_type vt) hm
  obtain ⟨v₁, v₂, hvl, hvall, hvpx, hvu⟩ :=
    updateFirst_decomp (fun v => ({ v with vote_type := vt, vote_hash := vh })) hov
  have hMid : M.id = mId := by simpa using hpx
  have hexid : ex.manifesto_id = mId := by
    have := hvpx
    unfold voteKey at this
    simp at this
    exact this.1
  have hexValid : validVoteType ex.vote_type = true := by
    apply hrv
    exact List.mem_of_find?_eq_some hov
  refine ⟨?_, ?_, ?_⟩
  · intro v hv
    simp only [hvu] at hv
    rcases List.mem_append.mp hv with h | h
    · exact hrv v (by rw [hvl]; exact List.mem_append_left _ h)
    · rcases List.mem_cons.mp h with h2 | h2
      · subst h2
        exact hvt
      · exact hrv v (by rw [hvl]; exact List.mem_append_right _ (List.mem_cons_of_mem _ h2))
  · unfold idsDistinct at hid ⊢
    simp only [hu]
    rw [hl] at hid
    simpa only [List.map_append, List.map_cons, id_changedManifesto] using hid
  · intro M2 hM2
    simp only [hu] at hM2
    have hcount : ∀ q : ManifestoVoteRec → Bool,
        (updateFirst (voteKey mId n)
            (fun v => { v with vote_type := vt, vote_hash := vh }) db.votes).countP q
            + (if q ex then 1 else 0)
          = db.votes.countP q
            + (if q { ex with vote_type := vt, vote_hash := vh } then 1 else 0) :=
      fun q => countP_update_single hov q
    rcases List.mem_append.mp hM2 with h1 | h12
    · have hne : M2.id ≠ mId := by simpa using hall M2 h1
      have hMem : M2 ∈ db.manifestos := by
        rw [hl]
        exact List.mem_append_left _ h1
      obtain ⟨hk, hb⟩ := hcm M2 hMem
      have hne2 : (ex.manifesto_id == M2.id) = false := by
        rw [hexid]
        exact beq_eq_false_iff_ne.mpr (Ne.symm hne)
      constructor
      · have hq := hcount (fun v => v.manifesto_id == M2.id && v.vote_type == "kept")
        simp [hne2] at hq
        rw [hq]
        exact hk
      · have hq := hcount (fun v => v.manifesto_id == M2.id && v.vote_type == "broken")
        simp [hne2] at hq
        rw [hq]
        exact hb
    · rcases List.mem_cons.mp h12 with h2 | h2
      · subst h2
        have hMem : M ∈ db.manifestos := by
          rw [hl]
          exact List.mem_append_right _ (List.mem_cons_self _ _)
        obtain ⟨hk, hb⟩ := hcm M hMem
        have hexid2 : (ex.manifesto_id == M.id) = true := by
          simp [hexid, hMid]
        rcases validVoteType_cases hexValid with ho | ho <;>
          rcases validVoteType_cases hvt with hn | hn <;>
            first
            | (exact absurd (ho.trans hn.symm) hdiff)
            | (constructor
               · have hq := hcount (fun v => v.manifesto_id == M.id && v.vote_type == "kept")
                 simp [hexid2, ho, hn, id_changedManifesto] at hq ⊢
                 simp [changedManifesto, ho, hn]
                 omega
               · have hq := hcount (fun v => v.manifesto_id == M.id && v.vote_type == "broken")
                 simp [hexid2, ho, hn, id_changedManifesto] at hq ⊢
                 simp [changedManifesto, ho, hn]
                 omega)
      · have hid2 : ((l₁ ++ M :: l₂).map (fun m => m.id)).Nodup := by
          unfold idsDistinct at hid
          rw [hl] at hid
          exact hid
        have hne : M2.id ≠ mId := hMid ▸ ids_ne_of_mid hid2 M2 h2
        have hMem : M2 ∈ db.manifestos := by
          rw [hl]
          exact List.mem_append_right _ (List.mem_cons_of_mem _ h2)
        obtain ⟨hk, hb⟩ := hcm M2 hMem
        have hne2 : (ex.manifesto_id == M2.id) = false := by
          rw [hexid]
          exact beq_eq_false_iff_ne.mpr (Ne.symm hne)
        constructor
        · have hq := hcount (fun v => v.manifesto_id == M2.id && v.vote_type == "kept")
          simp [hne2] at hq
          rw [hq]
          exact hk
        · have hq := hcount (fun v => v.manifesto_id == M2.id && v.vote_type == "broken")
          simp [hne2] at hq
          rw [hq]
          exact hb

end Backend

/-- C5: Invariant preserved by every vote operation (first vote, changed vote,
    unchanged resubmission, and every rejected call): for every subject, the
    cached aggregate counters `vote_kept` and `vote_broken` equal the number
    of stored vote rows for that subject whose choice is "kept" and "broken"
    respectively (together with the row-validity and primary-key facts the
    database enforces, which the invariant needs to be inductive). -/
theorem C5_vote_counters_invariant (now : Int) (voteHash : String) (req : Backend.VoteRequest)
    (db : Backend.DBState) (hgood : Backend.goodState db) :
    Backend.goodState
      (Backend.voteResultState (Backend.submit_vote now voteHash req db) db) := by
  rcases hc : db.credentials.find?
      (fun c => c.nullifier_hash == req.nullifier && c.is_valid) with _ | c
  · have hcore : Backend.submit_vote_core now voteHash req db
        = .error .invalidNullifier := by
      unfold Backend.submit_vote_core
      simp only [hc]
    simp only [Backend.submit_vote, hcore, Backend.voteResultState]
    exact hgood
  · rcases hm : db.manifestos.find? (fun m => m.id == req.manifesto_id) with _ | M
    · have hcore : Backend.submit_vote_core now voteHash req db
          = .error .manifestoNotFound := by
        unfold Backend.submit_vote_core
        simp only [hc, hm]
      simp only [Backend.submit_vote, hcore, Backend.voteResultState]
      exact hgood
    · by_cases hg : now < M.grace_period_end
      · have hcore := Backend.submit_vote_core_notopen now voteHash req db hc hm hg
        simp only [Backend.submit_vote, hcore, Backend.voteResultState]
        exact hgood
      · have hg2 : M.grace_period_end ≤ now := not_lt.mp hg
        rcases hov : db.votes.find?
            (Backend.voteKey req.manifesto_id req.nullifier) with _ | ex
        · have hcore := Backend.submit_vote_core_new now voteHash req db hc hm hg2 hov
          by_cases hvt : Backend.validVoteType req.vote_type = true
          · simp only [Backend.submit_vote, hcore, hvt, if_true, Backend.voteResultState]
            exact Backend.goodState_insert db M req.manifesto_id req.nullifier
              req.vote_type voteHash hm hgood hvt
          · have hvt2 : Backend.validVoteType req.vote_type = false :=
              Bool.not_eq_true _ ▸ (by simpa using hvt)
            simp only [Backend.submit_vote, hcore, hvt2, Bool.false_eq_true, if_false,
              Backend.voteResultState]
            exact hgood
        · by_cases heq : ex.vote_type = req.vote_type
          · have hcore := Backend.submit_vote_core_unchanged now voteHash req db
              hc hm hg2 hov heq
            simp only [Backend.submit_vote, hcore, Backend.voteResultState]
            exact hgood
          · have hcore := Backend.submit_vote_core_changed now voteHash req db
              hc hm hg2 hov heq
            by_cases hvt : Backend.validVoteType req.vote_type = true
            · simp only [Backend.submit_vote, hcore, hvt, if_true, Backend.voteResultState]
              exact Backend.goodState_change db M req.manifesto_id req.nullifier
                req.vote_type voteHash ex hm hov hgood hvt heq
            · have hvt2 : Backend.validVoteType req.vote_type = false :=
                Bool.not_eq_true _ ▸ (by simpa using hvt)
              simp only [Backend.submit_vote, hcore, hvt2, Bool.false_eq_true, if_false,
                Backend.voteResultState]
              exact hgood

/-- Witness for C5 at a concrete good state and a concrete changed vote. -/
theorem C5_vote_counters_invariant_witness :
    Backend.goodState
      (⟨[⟨"n1", "cred1", true⟩], [⟨1, 100, 1, 0⟩],
        [⟨1, "n1", "kept", "h0"⟩]⟩ : Backend.DBState) ∧
    Backend.goodState
      (Backend.voteResultState
        (Backend.submit_vote 150 "h1" ⟨1, "broken", "n1", ""⟩
          ⟨[⟨"n1", "cred1", true⟩], [⟨1, 100, 1, 0⟩], [⟨1, "n1", "kept", "h0"⟩]⟩)
        ⟨[⟨"n1", "cred1", true⟩], [⟨1, 100, 1, 0⟩], [⟨1, "n1", "kept", "h0"⟩]⟩) := by
  constructor
  · exact ⟨by unfold Backend.rowsValid; decide, by unfold Backend.idsDistinct; decide,
      by unfold Backend.countersMatch; decide⟩
  · exact C5_vote_counters_invariant 150 "h1" ⟨1, "broken", "n1", ""⟩ _
      ⟨by unfold Backend.rowsValid; decide, by unfold Backend.idsDistinct; decide,
       by unfold Backend.countersMatch; decide⟩

/-- C4: with a valid credential and an existing subject, `submit_vote` is
    rejected with the `VotingNotOpen` error exactly when the current time is
    strictly before the `grace_period_end` of the subject; at exactly
    `grace_period_end` and at every later time a (well-formed) vote is
    accepted. -/
theorem C4_grace_period_gate (now : Int) (voteHash : String) (req : Backend.VoteRequest)
    (db : Backend.DBState) (c : Backend.ZKCredentialRec) (M : Backend.ManifestoRec)
    (hc : db.credentials.find?
            (fun c => c.nullifier_hash == req.nullifier && c.is_valid) = some c)
    (hm : db.manifestos.find? (fun m => m.id == req.manifesto_id) = some M) :
    (Backend.submit_vote now voteHash req db = .error .votingNotOpen
        ↔ now < M.grace_period_end) ∧
    (Backend.validVoteType req.vote_type = true → M.grace_period_end ≤ now →
      ∃ res db2, Backend.submit_vote now voteHash req db = .ok (res, db2)) := by
  constructor
  · constructor
    · intro h
      by_contra hn
      have hg2 := not_lt.mp hn
      rcases hov : db.votes.find?
          (Backend.voteKey req.manifesto_id req.nullifier) with _ | ex
      · have hcore := Backend.submit_vote_core_new now voteHash req db hc hm hg2 hov
        by_cases hvt : Backend.validVoteType req.vote_type = true
        · simp only [Backend.submit_vote, hcore, hvt, if_true] at h
          exact Except.noConfusion h
        · have hvt2 : Backend.validVoteType req.vote_type = false :=
            Bool.not_eq_true _ ▸ (by simpa using hvt)
          simp only [Backend.submit_vote, hcore, hvt2, Bool.false_eq_true, if_false] at h
          injection h with h2
          exact Backend.VoteError.noConfusion h2
      · by_cases heq : ex.vote_type = req.vote_type
        · have hcore := Backend.submit_vote_core_unchanged now voteHash req db
            hc hm hg2 hov heq
          simp only [Backend.submit_vote, hcore] at h
          exact Except.noConfusion h
        · have hcore := Backend.submit_vote_core_changed now voteHash req db
            hc hm hg2 hov heq
          by_cases hvt : Backend.validVoteType req.vote_type = true
          · simp only [Backend.submit_vote, hcore, hvt, if_true] at h
            exact Except.noConfusion h
          · have hvt2 : Backend.validVoteType req.vote_type = false :=
              Bool.not_eq_true _ ▸ (by simpa using hvt)
            simp only [Backend.submit_vote, hcore, hvt2, Bool.false_eq_true, if_false] at h
            injection h with h2
            exact Backend.VoteError.noConfusion h2
    · intro h
      have hcore := Backend.submit_vote_core_notopen now voteHash req db hc hm h
      simp only [Backend.submit_vote, hcore]
  · intro hvt hg2
    rcases hov : db.votes.find?
        (Backend.voteKey req.manifesto_id req.nullifier) with _ | ex
    · have hcore := Backend.submit_vote_core_new now voteHash req db hc hm hg2 hov
      refine ⟨{ message := "Vote recorded successfully", changed := false },
        { db with
          manifestos := Backend.updateFirst (fun m => m.id == req.manifesto_id)
            (fun _ => Backend.newVoteManifesto M req.vote_type) db.manifestos,
          votes := db.votes
            ++ [⟨req.manifesto_id, req.nullifier, req.vote_type, voteHash⟩] }, ?_⟩
      simp only [Backend.submit_vote, hcore, hvt, if_true]
    · by_cases heq : ex.vote_type = req.vote_type
      · have hcore := Backend.submit_vote_core_unchanged now voteHash req db
          hc hm hg2 hov heq
        refine ⟨{ message := "Vote unchanged (same choice)", changed := false }, db, ?_⟩
        simp only [Backend.submit_vote, hcore]
      · have hcore := Backend.submit_vote_core_changed now voteHash req db
          hc hm hg2 hov heq
        refine ⟨{ message := "Vote changed successfully", changed := true },
          { db with
            manifestos := Backend.updateFirst (fun m => m.id == req.manifesto_id)
              (fun _ => Backend.changedManifesto M ex.vote_type req.vote_type) db.manifestos,
            votes := Backend.updateFirst (Backend.voteKey req.manifesto_id req.nullifier)
              (fun v => { v with vote_type := req.vote_type, vote_hash := voteHash })
              db.votes }, ?_⟩
        simp only [Backend.submit_vote, hcore, hvt, if_true]

/-- Witness for C4 at a concrete state, checked right at the boundary
    `now = grace_period_end = 100`. -/
theorem C4_grace_period_gate_witness :
    ((Backend.submit_vote 100 "h1" ⟨1, "broken", "n1", ""⟩
        ⟨[⟨"n1", "cred1", true⟩], [⟨1, 100, 1, 0⟩], [⟨1, "n1", "kept", "h0"⟩]⟩
        = .error .votingNotOpen) ↔ (100 : Int) < 100) ∧
    (Backend.validVoteType "broken" = true → (100 : Int) ≤ 100 →
      ∃ res db2, Backend.submit_vote 100 "h1" ⟨1, "broken", "n1", ""⟩
        ⟨[⟨"n1", "cred1", true⟩], [⟨1, 100, 1, 0⟩], [⟨1, "n1", "kept", "h0"⟩]⟩
        = .ok (res, db2)) :=
  C4_grace_period_gate 100 "h1" ⟨1, "broken", "n1", ""⟩
    ⟨[⟨"n1", "cred1", true⟩], [⟨1, 100, 1, 0⟩], [⟨1, "n1", "kept", "h0"⟩]⟩
    ⟨"n1", "cred1", true⟩ ⟨1, 100, 1, 0⟩ (by decide) (by decide)

namespace Backend

/-- Lemma: `find?` after `updateFirst` returns the rewritten first match, provided it
    still satisfies the predicate. -/
theorem find?_updateFirst {α : Type} {p : α → Bool} {f : α → α} {l : List α} {x : α}
    (h : l.find? p = some x) (hf : p (f x) = true) :
    (updateFirst p f l).find? p = some (f x) := by
  obtain ⟨l₁, l₂, hl, hall, hpx, hu⟩ := updateFirst_decomp f h
  rw [hu, find?_prefix_none hall, List.find?_cons_of_pos _ hf]

theorem grace_newVoteManifesto (M : ManifestoRec) (t : String) :
    (newVoteManifesto M t).grace_period_end = M.grace_period_end := by
  unfold newVoteManifesto
  split <;> rfl

end Backend

/-- C2: for a subject `m` and nullifier `n` with a valid credential, voting
    open at both calls, and no prior vote by `n` on `m`: voting `A` and then
    changing to `B` (distinct valid choices) leaves the counter of `A` at its
    pre-vote value, leaves the counter of `B` at its pre-vote value plus
    exactly one, stores exactly one vote row for `(m, n)`, and raises the
    total by exactly one vote — each call being a single atomic transition
    (counters move together within one transaction). -/
theorem C2_change_vote_counters (now1 now2 : Int) (h1 h2 : String) (m : Nat)
    (n A B pf1 pf2 : String) (db : Backend.DBState) (c : Backend.ZKCredentialRec)
    (M : Backend.ManifestoRec)
    (hc : db.credentials.find? (fun c => c.nullifier_hash == n && c.is_valid) = some c)
    (hm : db.manifestos.find? (fun mm => mm.id == m) = some M)
    (hg1 : M.grace_period_end ≤ now1) (hg2 : M.grace_period_end ≤ now2)
    (h0 : db.votes.countP (Backend.voteKey m n) = 0)
    (hA : Backend.validVoteType A = true) (hB : Backend.validVoteType B = true)
    (hAB : A ≠ B) :
    ∃ r1 db1 r2 db2 M2,
      Backend.submit_vote now1 h1 ⟨m, A, n, pf1⟩ db = .ok (r1, db1) ∧
      Backend.submit_vote now2 h2 ⟨m, B, n, pf2⟩ db1 = .ok (r2, db2) ∧
      db2.manifestos.find? (fun mm => mm.id == m) = some M2 ∧
      Backend.counterFor M2 A = Backend.counterFor M A ∧
      Backend.counterFor M2 B = Backend.counterFor M B + 1 ∧
      db2.votes.countP (Backend.voteKey m n) = 1 ∧
      M2.vote_kept + M2.vote_broken = M.vote_kept + M.vote_broken + 1 ∧
      r2.changed = true := by
  have hnov : db.votes.find? (Backend.voteKey m n) = none :=
    Backend.find?_eq_none_of_countP_zero h0
  have hcore1 := Backend.submit_vote_core_new now1 h1 ⟨m, A, n, pf1⟩ db hc hm hg1 hnov
  have hMid : (M.id == m) = true := by
    have := List.find?_some hm
    simpa using this
  have hsv1 : Backend.submit_vote now1 h1 ⟨m, A, n, pf1⟩ db
      = .ok ({ message := "Vote recorded successfully", changed := false },
             { db with
               manifestos := Backend.updateFirst (fun mm => mm.id == m)
                 (fun _ => Backend.newVoteManifesto M A) db.manifestos,
               votes := db.votes ++ [⟨m, n, A, h1⟩] }) := by
    simp only [Backend.submit_vote, hcore1, hA, if_true]
  have hm1 : (Backend.updateFirst (fun mm => mm.id == m)
        (fun _ => Backend.newVoteManifesto M A) db.manifestos).find? (fun mm => mm.id == m)
      = some (Backend.newVoteManifesto M A) :=
    Backend.find?_updateFirst hm (by rw [Backend.id_newVoteManifesto]; exact hMid)
  have hall0 : ∀ y ∈ db.votes, Backend.voteKey m n y = false := by
    intro y hy
    have := List.find?_eq_none.mp hnov y hy
    simpa using this
  have hov1 : (db.votes ++ [(⟨m, n, A, h1⟩ : Backend.ManifestoVoteRec)]).find?
      (Backend.voteKey m n) = some ⟨m, n, A, h1⟩ := by
    rw [Backend.find?_prefix_none hall0]
    rw [List.find?_cons_of_pos]
    simp [Backend.voteKey]
  have hg2b : (Backend.newVoteManifesto M A).grace_period_end ≤ now2 := by
    rw [Backend.grace_newVoteManifesto]
    exact hg2
  have hcore2 := Backend.submit_vote_core_changed now2 h2 ⟨m, B, n, pf2⟩
    ({ db with
       manifestos := Backend.updateFirst (fun mm => mm.id == m)
         (fun _ => Backend.newVoteManifesto M A) db.manifestos,
       votes := db.votes ++ [⟨m, n, A, h1⟩] }) hc hm1 hg2b hov1 (by simpa using hAB)
  have hsv2 : Backend.submit_vote now2 h2 ⟨m, B, n, pf2⟩
      ({ db with
         manifestos := Backend.updateFirst (fun mm => mm.id == m)
           (fun _ => Backend.newVoteManifesto M A) db.manifestos,
         votes := db.votes ++ [⟨m, n, A, h1⟩] })
      = .ok ({ message := "Vote changed successfully", changed := true },
             { db with
               manifestos := Backend.updateFirst (fun mm => mm.id == m)
                 (fun _ => Backend.changedManifesto (Backend.newVoteManifesto M A) A B)
                 (Backend.updateFirst (fun mm => mm.id == m)
                   (fun _ => Backend.newVoteManifesto M A) db.manifestos),
               votes := Backend.updateFirst (Backend.voteKey m n)
                 (fun v => { v with vote_type := B, vote_hash := h2 })
                 (db.votes ++ [⟨m, n, A, h1⟩]) }) := by
    simp only [Backend.submit_vote, hcore2, hB, if_true]
  have hm2 : (Backend.updateFirst (fun mm => mm.id == m)
        (fun _ => Backend.changedManifesto (Backend.newVoteManifesto M A) A B)
        (Backend.updateFirst (fun mm => mm.id == m)
          (fun _ => Backend.newVoteManifesto M A) db.manifestos)).find?
        (fun mm => mm.id == m)
      = some (Backend.changedManifesto (Backend.newVoteManifesto M A) A B) :=
    Backend.find?_updateFirst hm1
      (by rw [Backend.id_changedManifesto, Backend.id_newVoteManifesto]; exact hMid)
  have hcountMid : (db.votes ++ [(⟨m, n, A, h1⟩ : Backend.ManifestoVoteRec)]).countP
      (Backend.voteKey m n) = 1 := by
    rw [Backend.countP_append_single, h0]
    simp [Backend.voteKey]
  have hcount2 : (Backend.updateFirst (Backend.voteKey m n)
        (fun v => { v with vote_type := B, vote_hash := h2 })
        (db.votes ++ [⟨m, n, A, h1⟩])).countP (Backend.voteKey m n) = 1 := by
    have hq := @Backend.countP_update_single Backend.ManifestoVoteRec
      (db.votes ++ [⟨m, n, A, h1⟩]) ⟨m, n, A, h1⟩ (Backend.voteKey m n)
      (fun v => { v with vote_type := B, vote_hash := h2 }) hov1 (Backend.voteKey m n)
    simp [Backend.voteKey] at hq
    omega
  refine ⟨_, _, _, _, Backend.changedManifesto (Backend.newVoteManifesto M A) A B,
    hsv1, hsv2, hm2, ?_, ?_, hcount2, ?_, rfl⟩
  · rcases Backend.validVoteType_cases hA with hA2 | hA2 <;>
      rcases Backend.validVoteType_cases hB with hB2 | hB2 <;>
        subst hA2 <;> subst hB2 <;>
          first
          | (exact absurd rfl hAB)
          | (simp [Backend.counterFor, Backend.changedManifesto, Backend.newVoteManifesto])
  · rcases Backend.validVoteType_cases hA with hA2 | hA2 <;>
      rcases Backend.validVoteType_cases hB with hB2 | hB2 <;>
        subst hA2 <;> subst hB2 <;>
          first
          | (exact absurd rfl hAB)
          | (simp [Backend.counterFor, Backend.changedManifesto, Backend.newVoteManifesto])
  · rcases Backend.validVoteType_cases hA with hA2 | hA2 <;>
      rcases Backend.validVoteType_cases hB with hB2 | hB2 <;>
        subst hA2 <;> subst hB2 <;>
          first
          | (exact absurd rfl hAB)
          | (simp [Backend.changedManifesto, Backend.newVoteManifesto]; omega)

/-- Witness for C2 at a concrete state: vote "kept" then change to "broken". -/
theorem C2_change_vote_counters_witness :
    ∃ r1 db1 r2 db2 M2,
      Backend.submit_vote 100 "h1" ⟨1, "kept", "n1", ""⟩
        ⟨[⟨"n1", "cred1", true⟩], [⟨1, 50, 3, 4⟩], []⟩ = .ok (r1, db1) ∧
      Backend.submit_vote 101 "h2" ⟨1, "broken", "n1", ""⟩ db1 = .ok (r2, db2) ∧
      db2.manifestos.find? (fun mm => mm.id == 1) = some M2 ∧
      Backend.counterFor M2 "kept" = Backend.counterFor ⟨1, 50, 3, 4⟩ "kept" ∧
      Backend.counterFor M2 "broken" = Backend.counterFor ⟨1, 50, 3, 4⟩ "broken" + 1 ∧
      db2.votes.countP (Backend.voteKey 1 "n1") = 1 ∧
      M2.vote_kept + M2.vote_broken
        = (⟨1, 50, 3, 4⟩ : Backend.ManifestoRec).vote_kept
          + (⟨1, 50, 3, 4⟩ : Backend.ManifestoRec).vote_broken + 1 ∧
      r2.changed = true :=
  C2_change_vote_counters 100 101 "h1" "h2" 1 "n1" "kept" "broken" "" ""
    ⟨[⟨"n1", "cred1", true⟩], [⟨1, 50, 3, 4⟩], []⟩ ⟨"n1", "cred1", true⟩ ⟨1, 50, 3, 4⟩
    (by decide) (by decide) (by decide) (by decide) (by decide) (by decide) (by decide)
    (by decide)

/-- C10: `submit_vote` performs no validation of the choice string before
    adjusting counters — with a valid credential, an existing subject and
    voting open, any `vote_type` other than "kept" makes the application
    logic increment `vote_broken` on a first vote and move the count from
    `vote_kept` to `vote_broken` on a changed vote, and a string that is
    neither "kept" nor "broken" is rejected only by the database CHECK
    constraint at commit time. -/
theorem C10_no_choice_validation (now : Int) (voteHash : String) (m : Nat)
    (n v pf : String) (db : Backend.DBState) (c : Backend.ZKCredentialRec)
    (M : Backend.ManifestoRec)
    (hc : db.credentials.find? (fun c => c.nullifier_hash == n && c.is_valid) = some c)
    (hm : db.manifestos.find? (fun mm => mm.id == m) = some M)
    (hg : M.grace_period_end ≤ now)
    (hv : v ≠ "kept") :
    (db.votes.find? (Backend.voteKey m n) = none →
      Backend.submit_vote_core now voteHash ⟨m, v, n, pf⟩ db
          = .ok ({ message := "Vote recorded successfully", changed := false },
             { db with
               manifestos := Backend.updateFirst (fun mm => mm.id == m)
                 (fun _ => { M with vote_broken := M.vote_broken + 1 }) db.manifestos,
               votes := db.votes ++ [⟨m, n, v, voteHash⟩] },
             some ⟨m, n, v, voteHash⟩)) ∧
    (∀ ex, db.votes.find? (Backend.voteKey m n) = some ex → ex.vote_type = "kept" →
      Backend.submit_vote_core now voteHash ⟨m, v, n, pf⟩ db
          = .ok ({ message := "Vote changed successfully", changed := true },
             { db with
               manifestos := Backend.updateFirst (fun mm => mm.id == m)
                 (fun _ => { M with vote_kept := M.vote_kept - 1,
                                    vote_broken := M.vote_broken + 1 }) db.manifestos,
               votes := Backend.updateFirst (Backend.voteKey m n)
                 (fun w => { w with vote_type := v, vote_hash := voteHash }) db.votes },
             some { ex with vote_type := v, vote_hash := voteHash })) ∧
    (v ≠ "broken" → db.votes.find? (Backend.voteKey m n) = none →
      Backend.submit_vote now voteHash ⟨m, v, n, pf⟩ db = .error .checkViolation) := by
  have hnew : Backend.newVoteManifesto M v = { M with vote_broken := M.vote_broken + 1 } := by
    unfold Backend.newVoteManifesto
    rw [if_neg (by simpa using hv)]
  refine ⟨?_, ?_, ?_⟩
  · intro hnov
    have hcore := Backend.submit_vote_core_new now voteHash ⟨m, v, n, pf⟩ db hc hm hg hnov
    rw [hcore, hnew]
  · intro ex hov hex
    have hdiff : ¬ ex.vote_type = v := by
      rw [hex]
      exact fun h => hv h.symm
    have hcore := Backend.submit_vote_core_changed now voteHash ⟨m, v, n, pf⟩ db
      hc hm hg hov hdiff
    have hch : Backend.changedManifesto M ex.vote_type v
        = { M with vote_kept := M.vote_kept - 1, vote_broken := M.vote_broken + 1 } := by
      unfold Backend.changedManifesto
      rw [hex]
      simp only [beq_self_eq_true, if_true]
      rw [if_neg (by simpa using hv)]
    rw [hcore, hch]
  · intro hvb hnov
    have hcore := Backend.submit_vote_core_new now voteHash ⟨m, v, n, pf⟩ db hc hm hg hnov
    have hvt2 : Backend.validVoteType v = false := by
      simp [Backend.validVoteType, hv, hvb]
    simp only [Backend.submit_vote, hcore, hvt2, Bool.false_eq_true, if_false]

/-- Witness for C10 at a concrete state with the malformed choice "maybe". -/
theorem C10_no_choice_validation_witness :
    ((⟨[⟨"n1", "cred1", true⟩], [⟨1, 50, 3, 4⟩], []⟩ : Backend.DBState).votes.find?
        (Backend.voteKey 1 "n1") = none →
      Backend.submit_vote_core 100 "h1" ⟨1, "maybe", "n1", ""⟩
          ⟨[⟨"n1", "cred1", true⟩], [⟨1, 50, 3, 4⟩], []⟩
          = .ok ({ message := "Vote recorded successfully", changed := false },
             { (⟨[⟨"n1", "cred1", true⟩], [⟨1, 50, 3, 4⟩], []⟩ : Backend.DBState) with
               manifestos := Backend.updateFirst (fun mm => mm.id == 1)
                 (fun _ => { (⟨1, 50, 3, 4⟩ : Backend.ManifestoRec) with
                             vote_broken := (4 : Int) + 1 })
                 [⟨1, 50, 3, 4⟩],
               votes := [] ++ [⟨1, "n1", "maybe", "h1"⟩] },
             some ⟨1, "n1", "maybe", "h1"⟩)) ∧
    (∀ ex, (⟨[⟨"n1", "cred1", true⟩], [⟨1, 50, 3, 4⟩], []⟩ : Backend.DBState).votes.find?
        (Backend.voteKey 1 "n1") = some ex → ex.vote_type = "kept" →
      Backend.submit_vote_core 100 "h1" ⟨1, "maybe", "n1", ""⟩
          ⟨[⟨"n1", "cred1", true⟩], [⟨1, 50, 3, 4⟩], []⟩
          = .ok ({ message := "Vote changed successfully", changed := true },
             { (⟨[⟨"n1", "cred1", true⟩], [⟨1, 50, 3, 4⟩], []⟩ : Backend.DBState) with
               manifestos := Backend.updateFirst (fun mm => mm.id == 1)
                 (fun _ => { (⟨1, 50, 3, 4⟩ : Backend.ManifestoRec) with
                             vote_kept := (3 : Int) - 1, vote_broken := (4 : Int) + 1 })
                 [⟨1, 50, 3, 4⟩],
               votes := Backend.updateFirst (Backend.voteKey 1 "n1")
                 (fun w => { w with vote_type := "maybe", vote_hash := "h1" }) []},
             some { ex with vote_type := "maybe", vote_hash := "h1" })) ∧
    ("maybe" ≠ "broken" →
      (⟨[⟨"n1", "cred1", true⟩], [⟨1, 50, 3, 4⟩], []⟩ : Backend.DBState).votes.find?
        (Backend.voteKey 1 "n1") = none →
      Backend.submit_vote 100 "h1" ⟨1, "maybe", "n1", ""⟩
        ⟨[⟨"n1", "cred1", true⟩], [⟨1, 50, 3, 4⟩], []⟩ = .error .checkViolation) :=
  C10_no_choice_validation 100 "h1" 1 "n1" "maybe" ""
    ⟨[⟨"n1", "cred1", true⟩], [⟨1, 50, 3, 4⟩], []⟩ ⟨"n1", "cred1", true⟩ ⟨1, 50, 3, 4⟩
    (by decide) (by decide) (by decide) (by decide)

namespace Backend

/-- Fresh-nullifier branch of `zk_login` in closed form: with a matching root
    and an unseen nullifier a credential is stored and returned, no proof
    input consulted. -/
theorem zk_login_new (root fresh proofBlob : String) (sig : List String)
    (credOpt : Option String) (n : String) (db : DBState)
    (hn : n.isEmpty = false) (hr : root.isEmpty = false)
    (hfind : db.credentials.find? (fun c => c.nullifier_hash == n) = none) :
    zk_login root fresh ⟨proofBlob, sig, some n, credOpt, some root⟩ db
      = ({ valid := true,
           credential := some (chosenCredential credOpt fresh),
           message := "Zero-knowledge proof verified. Anonymous credential issued.",
           used_votes := none },
         { db with credentials := db.credentials
             ++ [⟨n, chosenCredential credOpt fresh, true⟩] }) := by
  unfold zk_login
  have htr : (truthyOpt (some n) && truthyOpt (some root)) = true := by
    simp [truthyOpt, hn, hr]
  simp only [htr, if_true, Option.getD_some]
  simp [hfind]

/-- Known-nullifier branch of `zk_login` in closed form: the stored credential
    is returned together with the manifesto ids already voted on, and the
    state is unchanged. -/
theorem zk_login_existing (root fresh proofBlob : String) (sig : List String)
    (credOpt : Option String) (n : String) (db : DBState) (ex : ZKCredentialRec)
    (hn : n.isEmpty = false) (hr : root.isEmpty = false)
    (hfind : db.credentials.find? (fun c => c.nullifier_hash == n) = some ex) :
    zk_login root fresh ⟨proofBlob, sig, some n, credOpt, some root⟩ db
      = ({ valid := true, credential := some ex.credential_hash,
           message := "Welcome back! Your credential has been restored.",
           used_votes := some ((db.votes.filter (fun v => v.nullifier == n)).map
             (fun v => v.manifesto_id)) },
         db) := by
  unfold zk_login
  have htr : (truthyOpt (some n) && truthyOpt (some root)) = true := by
    simp [truthyOpt, hn, hr]
  simp only [htr, if_true, Option.getD_some]
  simp [hfind]

end Backend

/-- C1: the login path accepts a request (and issues a fresh credential)
    whenever the claimed root matches the current root and the nullifier is
    unseen, for EVERY proof blob — the handler never consults any
    zero-knowledge verifier, so acceptance cannot depend on the verifier
    having returned success, contradicting the specified gate. -/
theorem C1_login_never_calls_verifier (proofBlob : String) :
    (Backend.zk_login "root1" "fresh-cred"
      ⟨proofBlob, [], some "n1", none, some "root1"⟩ ⟨[], [], []⟩).1.valid = true ∧
    (Backend.zk_login "root1" "fresh-cred"
      ⟨proofBlob, [], some "n1", none, some "root1"⟩ ⟨[], [], []⟩).1.credential
        = some "fresh-cred" ∧
    (Backend.zk_login "root1" "fresh-cred"
      ⟨proofBlob, [], some "n1", none, some "root1"⟩ ⟨[], [], []⟩).2.credentials
        = [⟨"n1", "fresh-cred", true⟩] :=
  ⟨rfl, rfl, rfl⟩

/-- C3: issuing twice for the same fresh nullifier with the current root
    returns the identical credential both times, stores exactly one
    credential record, does not error on the repeat call, and leaves the
    state unchanged on the repeat call. -/
theorem C3_issue_idempotent (root fresh1 fresh2 n proofBlob : String)
    (credOpt : Option String) (sig : List String) (db : Backend.DBState)
    (hn : n.isEmpty = false) (hr : root.isEmpty = false)
    (h0 : db.credentials.countP (fun c => c.nullifier_hash == n) = 0) :
    (Backend.zk_login root fresh1 ⟨proofBlob, sig, some n, credOpt, some root⟩ db).1.valid
        = true ∧
    (Backend.zk_login root fresh2 ⟨proofBlob, sig, some n, credOpt, some root⟩
        (Backend.zk_login root fresh1 ⟨proofBlob, sig, some n, credOpt, some root⟩
          db).2).1.valid = true ∧
    (Backend.zk_login root fresh1 ⟨proofBlob, sig, some n, credOpt, some root⟩
        db).1.credential.isSome = true ∧
    (Backend.zk_login root fresh2 ⟨proofBlob, sig, some n, credOpt, some root⟩
        (Backend.zk_login root fresh1 ⟨proofBlob, sig, some n, credOpt, some root⟩
          db).2).1.credential
      = (Backend.zk_login root fresh1 ⟨proofBlob, sig, some n, credOpt, some root⟩
          db).1.credential ∧
    (Backend.zk_login root fresh2 ⟨proofBlob, sig, some n, credOpt, some root⟩
        (Backend.zk_login root fresh1 ⟨proofBlob, sig, some n, credOpt, some root⟩
          db).2).2
      = (Backend.zk_login root fresh1 ⟨proofBlob, sig, some n, credOpt, some root⟩
          db).2 ∧
    (Backend.zk_login root fresh1 ⟨proofBlob, sig, some n, credOpt, some root⟩
        db).2.credentials.countP (fun c => c.nullifier_hash == n) = 1 := by
  have hfind : db.credentials.find? (fun c => c.nullifier_hash == n) = none :=
    Backend.find?_eq_none_of_countP_zero h0
  have hall : ∀ y ∈ db.credentials, (fun c => c.nullifier_hash == n) y = false := by
    intro y hy
    have := List.find?_eq_none.mp hfind y hy
    simpa using this
  have h1 := Backend.zk_login_new root fresh1 proofBlob sig credOpt n db hn hr hfind
  have hfind2 : (db.credentials
      ++ [(⟨n, Backend.chosenCredential credOpt fresh1, true⟩ : Backend.ZKCredentialRec)]).find?
        (fun c => c.nullifier_hash == n)
      = some ⟨n, Backend.chosenCredential credOpt fresh1, true⟩ := by
    rw [Backend.find?_prefix_none hall]
    rw [List.find?_cons_of_pos]
    simp
  have h2 := Backend.zk_login_existing root fresh2 proofBlob sig credOpt n
    ({ db with credentials := db.credentials
        ++ [⟨n, Backend.chosenCredential credOpt fresh1, true⟩] })
    ⟨n, Backend.chosenCredential credOpt fresh1, true⟩ hn hr hfind2
  rw [h1]
  rw [h2]
  refine ⟨rfl, rfl, rfl, rfl, rfl, ?_⟩
  rw [Backend.countP_append_single, h0]
  simp

/-- Witness for C3 at a concrete fresh nullifier presented with the current
    root and distinct fresh tokens for the two calls. -/
theorem C3_issue_idempotent_witness :
    (Backend.zk_login "rootA" "f1" ⟨"proof-blob", [], some "n7", none, some "rootA"⟩
        ⟨[], [], []⟩).1.valid = true ∧
    (Backend.zk_login "rootA" "f2" ⟨"proof-blob", [], some "n7", none, some "rootA"⟩
        (Backend.zk_login "rootA" "f1" ⟨"proof-blob", [], some "n7", none, some "rootA"⟩
          ⟨[], [], []⟩).2).1.valid = true ∧
    (Backend.zk_login "rootA" "f1" ⟨"proof-blob", [], some "n7", none, some "rootA"⟩
        ⟨[], [], []⟩).1.credential.isSome = true ∧
    (Backend.zk_login "rootA" "f2" ⟨"proof-blob", [], some "n7", none, some "rootA"⟩
        (Backend.zk_login "rootA" "f1" ⟨"proof-blob", [], some "n7", none, some "rootA"⟩
          ⟨[], [], []⟩).2).1.credential
      = (Backend.zk_login "rootA" "f1" ⟨"proof-blob", [], some "n7", none, some "rootA"⟩
          ⟨[], [], []⟩).1.credential ∧
    (Backend.zk_login "rootA" "f2" ⟨"proof-blob", [], some "n7", none, some "rootA"⟩
        (Backend.zk_login "rootA" "f1" ⟨"proof-blob", [], some "n7", none, some "rootA"⟩
          ⟨[], [], []⟩).2).2
      = (Backend.zk_login "rootA" "f1" ⟨"proof-blob", [], some "n7", none, some "rootA"⟩
          ⟨[], [], []⟩).2 ∧
    (Backend.zk_login "rootA" "f1" ⟨"proof-blob", [], some "n7", none, some "rootA"⟩
        ⟨[], [], []⟩).2.credentials.countP (fun c => c.nullifier_hash == "n7") = 1 :=
  C3_issue_idempotent "rootA" "f1" "f2" "n7" "proof-blob" none [] ⟨[], [], []⟩
    (by decide) (by decide) (by decide)

/-- C7: the seeded shuffle is a permutation — the multiset of shuffled leaves
    equals the multiset of the original leaves for every random stream (hence
    for every seed), so no leaf is added, removed, or duplicated. -/
theorem C7_shuffle_is_permutation (r : Nat → Nat) (l : List String) :
    ((Merkle.pyShuffle r l : List String) : Multiset String) = (l : Multiset String) :=
  Multiset.coe_eq_coe.mpr (Merkle.pyShuffle_perm r l)

/-- C8 evidence: with strong (Poseidon) hashing configured, a helper failure
    (`none`) makes `compute_voter_leaf` silently return the standard SHA-256
    digest and makes `build_tree` silently build the SHA-256 fallback tree at
    runtime — neither is a hard error, contradicting the specified
    hard-failure contract. -/
theorem C8_silent_sha256_fallback (voter_id : String) (leaves : List String)
    (hne : leaves.length ≠ 0) :
    Merkle.compute_voter_leaf true none voter_id = Merkle.hash_node voter_id ∧
    Merkle.build_tree true none leaves = Merkle.buildSha256Tree leaves := by
  constructor
  · rfl
  · unfold Merkle.build_tree
    rw [if_neg hne]
    rfl

/-- Witness for C8 at a concrete voter id and leaf list. -/
theorem C8_silent_sha256_fallback_witness :
    (["L1"] : List String).length ≠ 0 ∧
    (Merkle.compute_voter_leaf true none "V1" = Merkle.hash_node "V1" ∧
     Merkle.build_tree true none ["L1"] = Merkle.buildSha256Tree ["L1"]) :=
  ⟨by decide, C8_silent_sha256_fallback "V1" ["L1"] (by decide)⟩

set_option maxRecDepth 16000

set_option maxHeartbeats 1600000

/-- Folding the empty sibling path returns the accumulator unchanged. -/
theorem foldPath_nil (acc : String) : Merkle.foldPath acc [] = acc := rfl

/-- Folding one left-child path entry is one hash of the accumulator with the
    sibling appended. -/
theorem foldPath_cons_zero (leaf e : String) (ps : List (String × Nat)) :
    Merkle.foldPath leaf ((e, 0) :: ps)
      = Merkle.foldPath (Merkle.hash_node (leaf ++ e)) ps := rfl

/-- Hash values along the fold of the FULL padded path for the two-leaf tree,
    one kernel-checked hash per declaration: step 1 hashes the two leaves. -/
theorem foldChainStep1 : Merkle.hash_node ("a" ++ "b") = "fb8e20fc2e4c3f248c60c39bd652f3c1347298bb977b8b4d5903b85055620603" := by decide

/-- Step 2 of the padded-path fold: hash the previous value with the zero sibling. -/
theorem foldChainStep2 : Merkle.hash_node ("fb8e20fc2e4c3f248c60c39bd652f3c1347298bb977b8b4d5903b85055620603" ++ Merkle.zeros64)
    = "8f938004dcb0bfe44b40a74d26a3c3814f6c9925870016ef4b6f57d998558be9" := by decide

/-- Step 3 of the padded-path fold: hash the previous value with the zero sibling. -/
theorem foldChainStep3 : Merkle.hash_node ("8f938004dcb0bfe44b40a74d26a3c3814f6c9925870016ef4b6f57d998558be9" ++ Merkle.zeros64)
    = "670e5f8e182bd1953b3b351e528eca638172ffa76986a07e5d10a96c14cffd37" := by decide

/-- Step 4 of the padded-path fold: hash the previous value with the zero sibling. -/
theorem foldChainStep4 : Merkle.hash_node ("670e5f8e182bd1953b3b351e528eca638172ffa76986a07e5d10a96c14cffd37" ++ Merkle.zeros64)
    = "120099342f366e359aa97f53a6beba7f806130f55dde649122c6059ad092f27b" := by decide

/-- Step 5 of the padded-path fold: hash the previous value with the zero sibling. -/
theorem foldChainStep5 : Merkle.hash_node ("120099342f366e359aa97f53a6beba7f806130f55dde649122c6059ad092f27b" ++ Merkle.zeros64)
    = "bfcc47e592f8948463991dc3cd733e7fe8550ecf2fc1e668539229d840dc6bda" := by decide

/-- Step 6 of the padded-path fold: hash the previous value with the zero sibling. -/
theorem foldChainStep6 : Merkle.hash_node ("bfcc47e592f8948463991dc3cd733e7fe8550ecf2fc1e668539229d840dc6bda" ++ Merkle.zeros64)
    = "02c4ba3a8a6678fc4850e1835ea60c0d84305279c9b0b85d0840597f0f51e8d6" := by decide

/-- Step 7 of the padded-path fold: hash the previous value with the zero sibling. -/
theorem foldChainStep7 : Merkle.hash_node ("02c4ba3a8a6678fc4850e1835ea60c0d84305279c9b0b85d0840597f0f51e8d6" ++ Merkle.zeros64)
    = "a9f71e2bad44c69646fb49763cc6176854d6fd6a6efb0209ef3abd54c4647350" := by decide

/-- Step 8 of the padded-path fold: hash the previous value with the zero sibling. -/
theorem foldChainStep8 : Merkle.hash_node ("a9f71e2bad44c69646fb49763cc6176854d6fd6a6efb0209ef3abd54c4647350" ++ Merkle.zeros64)
    = "8ba6cb150cb9320be9d5a56d52fa677b3862db5f5c4e7b4695c5d9312379e42c" := by decide

/-- Step 9 of the padded-path fold: hash the previous value with the zero sibling. -/
theorem foldChainStep9 : Merkle.hash_node ("8ba6cb150cb9320be9d5a56d52fa677b3862db5f5c4e7b4695c5d9312379e42c" ++ Merkle.zeros64)
    = "6af5ee8a2e3b40c36f397f5aa875e0a4aabb0c3f909385928f7fc7fe8bd03f0c" := by decide

/-- Step 10 of the padded-path fold: hash the previous value with the zero sibling. -/
theorem foldChainStep10 : Merkle.hash_node ("6af5ee8a2e3b40c36f397f5aa875e0a4aabb0c3f909385928f7fc7fe8bd03f0c" ++ Merkle.zeros64)
    = "4525d7b7a77c9f64d8b58281a6f1d7d56aa62e70417cb1271b052ff82315c5d8" := by decide

/-- Step 11 of the padded-path fold: hash the previous value with the zero sibling. -/
theorem foldChainStep11 : Merkle.hash_node ("4525d7b7a77c9f64d8b58281a6f1d7d56aa62e70417cb1271b052ff82315c5d8" ++ Merkle.zeros64)
    = "b080c4b517bf1d30799c5cef63e1b40182a8d39669ec0352603a106667f77d46" := by decide

/-- Step 12 of the padded-path fold: hash the previous value with the zero sibling. -/
theorem foldChainStep12 : Merkle.hash_node ("b080c4b517bf1d30799c5cef63e1b40182a8d39669ec0352603a106667f77d46" ++ Merkle.zeros64)
    = "d0943463fd47f0d5e348e63b1bfccf143033a0c1b221bf1ed1bed47a48c9a707" := by decide

/-- Step 13 of the padded-path fold: hash the previous value with the zero sibling. -/
theorem foldChainStep13 : Merkle.hash_node ("d0943463fd47f0d5e348e63b1bfccf143033a0c1b221bf1ed1bed47a48c9a707" ++ Merkle.zeros64)
    = "14707448068a0954a210268d554bd18342bd492d8382cee2101f53f6a3939cf0" := by decide

/-- Step 14 of the padded-path fold: hash the previous value with the zero sibling. -/
theorem foldChainStep14 : Merkle.hash_node ("14707448068a0954a210268d554bd18342bd492d8382cee2101f53f6a3939cf0" ++ Merkle.zeros64)
    = "a0f23ad485616f8adb6e0dc47da627b2df1f5862a4ac8b3e4fbcc4114c4330ba" := by decide

/-- Step 15 of the padded-path fold: hash the previous value with the zero sibling. -/
theorem foldChainStep15 : Merkle.hash_node ("a0f23ad485616f8adb6e0dc47da627b2df1f5862a4ac8b3e4fbcc4114c4330ba" ++ Merkle.zeros64)
    = "68e44a26cf044b8c641e9aaadf006de0b38bc5a6b2c59e0f45b019aeee5f30b6" := by decide

/-- Root of the two-leaf tree over leaves a and b. -/
theorem abRootValue : (Merkle.buildSha256Tree ["a", "b"]).root = "fb8e20fc2e4c3f248c60c39bd652f3c1347298bb977b8b4d5903b85055620603" := by decide

/-- C6 counterexample: the claim as stated is false on the code. The proof
    operation pads the sibling path to depth 15 with zero siblings, and
    folding the ENTIRE returned path against the leaf does not reproduce the
    root (here: two leaves, index 0). The fold is assembled from the per-step
    hash values proved above. -/
theorem C6_full_path_fold_fails :
    Merkle.verifyProof "a"
      ((Merkle.getSha256Proof (Merkle.buildSha256Tree ["a", "b"]) 0).getD [])
      (Merkle.buildSha256Tree ["a", "b"]).root = false := by
  have hpath : (Merkle.getSha256Proof (Merkle.buildSha256Tree ["a", "b"]) 0).getD []
      = (("b", 0) :: (Merkle.zeros64, 0) :: (Merkle.zeros64, 0) :: (Merkle.zeros64, 0) :: (Merkle.zeros64, 0) :: (Merkle.zeros64, 0) :: (Merkle.zeros64, 0) :: (Merkle.zeros64, 0) :: (Merkle.zeros64, 0) :: (Merkle.zeros64, 0) :: (Merkle.zeros64, 0) :: (Merkle.zeros64, 0) :: (Merkle.zeros64, 0) :: (Merkle.zeros64, 0) :: (Merkle.zeros64, 0) :: []) := by decide
  have hfold : Merkle.foldPath "a" (("b", 0) :: (Merkle.zeros64, 0) :: (Merkle.zeros64, 0) :: (Merkle.zeros64, 0) :: (Merkle.zeros64, 0) :: (Merkle.zeros64, 0) :: (Merkle.zeros64, 0) :: (Merkle.zeros64, 0) :: (Merkle.zeros64, 0) :: (Merkle.zeros64, 0) :: (Merkle.zeros64, 0) :: (Merkle.zeros64, 0) :: (Merkle.zeros64, 0) :: (Merkle.zeros64, 0) :: (Merkle.zeros64, 0) :: []) = "68e44a26cf044b8c641e9aaadf006de0b38bc5a6b2c59e0f45b019aeee5f30b6" :=
    (((foldPath_cons_zero "a" "b" ((Merkle.zeros64, 0) :: (Merkle.zeros64, 0) :: (Merkle.zeros64, 0) :: (Merkle.zeros64, 0) :: (Merkle.zeros64, 0) :: (Merkle.zeros64, 0) :: (Merkle.zeros64, 0) :: (Merkle.zeros64, 0) :: (Merkle.zeros64, 0) :: (Merkle.zeros64, 0) :: (Merkle.zeros64, 0) :: (Merkle.zeros64, 0) :: (Merkle.zeros64, 0) :: (Merkle.zeros64, 0) :: [])).trans (congrArg (fun x => Merkle.foldPath x ((Merkle.zeros64, 0) :: (Merkle.zeros64, 0) :: (Merkle.zeros64, 0) :: (Merkle.zeros64, 0) :: (Merkle.zeros64, 0) :: (Merkle.zeros64, 0) :: (Merkle.zeros64, 0) :: (Merkle.zeros64, 0) :: (Merkle.zeros64, 0) :: (Merkle.zeros64, 0) :: (Merkle.zeros64, 0) :: (Merkle.zeros64, 0) :: (Merkle.zeros64, 0) :: (Merkle.zeros64, 0) :: [])) foldChainStep1)).trans (((foldPath_cons_zero "fb8e20fc2e4c3f248c60c39bd652f3c1347298bb977b8b4d5903b85055620603" Merkle.zeros64 ((Merkle.zeros64, 0) :: (Merkle.zeros64, 0) :: (Merkle.zeros64, 0) :: (Merkle.zeros64, 0) :: (Merkle.zeros64, 0) :: (Merkle.zeros64, 0) :: (Merkle.zeros64, 0) :: (Merkle.zeros64, 0) :: (Merkle.zeros64, 0) :: (Merkle.zeros64, 0) :: (Merkle.zeros64, 0) :: (Merkle.zeros64, 0) :: (Merkle.zeros64, 0) :: [])).trans (congrArg (fun x => Merkle.foldPath x ((Merkle.zeros64, 0) :: (Merkle.zeros64, 0) :: (Merkle.zeros64, 0) :: (Merkle.zeros64, 0) :: (Merkle.zeros64, 0) :: (Merkle.zeros64, 0) :: (Merkle.zeros64, 0) :: (Merkle.zeros64, 0) :: (Merkle.zeros64, 0) :: (Merkle.zeros64, 0) :: (Merkle.zeros64, 0) :: (Merkle.zeros64, 0) :: (Merkle.zeros64, 0) :: [])) foldChainStep2)).trans (((foldPath_cons_zero "8f938004dcb0bfe44b40a74d26a3c3814f6c9925870016ef4b6f57d998558be9" Merkle.zeros64 ((Merkle.zeros64, 0) :: (Merkle.zeros64, 0) :: (Merkle.zeros64, 0) :: (Merkle.zeros64, 0) :: (Merkle.zeros64, 0) :: (Merkle.zeros64, 0) :: (Merkle.zeros64, 0) :: (Merkle.zeros64, 0) :: (Merkle.zeros64, 0) :: (Merkle.zeros64, 0) :: (Merkle.zeros64, 0) :: (Merkle.zeros64, 0) :: [])).trans (congrArg (fun x => Merkle.foldPath x ((Merkle.zeros64, 0) :: (Merkle.zeros64, 0) :: (Merkle.zeros64, 0) :: (Merkle.zeros64, 0) :: (Merkle.zeros64, 0) :: (Merkle.zeros64, 0) :: (Merkle.zeros64, 0) :: (Merkle.zeros64, 0) :: (Merkle.zeros64, 0) :: (Merkle.zeros64, 0) :: (Merkle.zeros64, 0) :: (Merkle.zeros64, 0) :: [])) foldChainStep3)).trans (((foldPath_cons_zero "670e5f8e182bd1953b3b351e528eca638172ffa76986a07e5d10a96c14cffd37" Merkle.zeros64 ((Merkle.zeros64, 0) :: (Merkle.zeros64, 0) :: (Merkle.zeros64, 0) :: (Merkle.zeros64, 0) :: (Merkle.zeros64, 0) :: (Merkle.zeros64, 0) :: (Merkle.zeros64, 0) :: (Merkle.zeros64, 0) :: (Merkle.zeros64, 0) :: (Merkle.zeros64, 0) :: (Merkle.zeros64, 0) :: [])).trans (congrArg (fun x => Merkle.foldPath x ((Merkle.zeros64, 0) :: (Merkle.zeros64, 0) :: (Merkle.zeros64, 0) :: (Merkle.zeros64, 0) :: (Merkle.zeros64, 0) :: (Merkle.zeros64, 0) :: (Merkle.zeros64, 0) :: (Merkle.zeros64, 0) :: (Merkle.zeros64, 0) :: (Merkle.zeros64, 0) :: (Merkle.zeros64, 0) :: [])) foldChainStep4)).trans (((foldPath_cons_zero "120099342f366e359aa97f53a6beba7f806130f55dde649122c6059ad092f27b" Merkle.zeros64 ((Merkle.zeros64, 0) :: (Merkle.zeros64, 0) :: (Merkle.zeros64, 0) :: (Merkle.zeros64, 0) :: (Merkle.zeros64, 0) :: (Merkle.zeros64, 0) :: (Merkle.zeros64, 0) :: (Merkle.zeros64, 0) :: (Merkle.zeros64, 0) :: (Merkle.zeros64, 0) :: [])).trans (congrArg (fun x => Merkle.foldPath x ((Merkle.zeros64, 0) :: (Merkle.zeros64, 0) :: (Merkle.zeros64, 0) :: (Merkle.zeros64, 0) :: (Merkle.zeros64, 0) :: (Merkle.zeros64, 0) :: (Merkle.zeros64, 0) :: (Merkle.zeros64, 0) :: (Merkle.zeros64, 0) :: (Merkle.zeros64, 0) :: [])) foldChainStep5)).trans (((foldPath_cons_zero "bfcc47e592f8948463991dc3cd733e7fe8550ecf2fc1e668539229d840dc6bda" Merkle.zeros64 ((Merkle.zeros64, 0) :: (Merkle.zeros64, 0) :: (Merkle.zeros64, 0) :: (Merkle.zeros64, 0) :: (Merkle.zeros64, 0) :: (Merkle.zeros64, 0) :: (Merkle.zeros64, 0) :: (Merkle.zeros64, 0) :: (Merkle.zeros64, 0) :: [])).trans (congrArg (fun x => Merkle.foldPath x ((Merkle.zeros64, 0) :: (Merkle.zeros64, 0) :: (Merkle.zeros64, 0) :: (Merkle.zeros64, 0) :: (Merkle.zeros64, 0) :: (Merkle.zeros64, 0) :: (Merkle.zeros64, 0) :: (Merkle.zeros64, 0) :: (Merkle.zeros64, 0) :: [])) foldChainStep6)).trans (((foldPath_cons_zero "02c4ba3a8a6678fc4850e1835ea60c0d84305279c9b0b85d0840597f0f51e8d6" Merkle.zeros64 ((Merkle.zeros64, 0) :: (Merkle.zeros64, 0) :: (Merkle.zeros64, 0) :: (Merkle.zeros64, 0) :: (Merkle.zeros64, 0) :: (Merkle.zeros64, 0) :: (Merkle.zeros64, 0) :: (Merkle.zeros64, 0) :: [])).trans (congrArg (fun x => Merkle.foldPath x ((Merkle.zeros64, 0) :: (Merkle.zeros64, 0) :: (Merkle.zeros64, 0) :: (Merkle.zeros64, 0) :: (Merkle.zeros64, 0) :: (Merkle.zeros64, 0) :: (Merkle.zeros64, 0) :: (Merkle.zeros64, 0) :: [])) foldChainStep7)).trans (((foldPath_cons_zero "a9f71e2bad44c69646fb49763cc6176854d6fd6a6efb0209ef3abd54c4647350" Merkle.zeros64 ((Merkle.zeros64, 0) :: (Merkle.zeros64, 0) :: (Merkle.zeros64, 0) :: (Merkle.zeros64, 0) :: (Merkle.zeros64, 0) :: (Merkle.zeros64, 0) :: (Merkle.zeros64, 0) :: [])).trans (congrArg (fun x => Merkle.foldPath x ((Merkle.zeros64, 0) :: (Merkle.zeros64, 0) :: (Merkle.zeros64, 0) :: (Merkle.zeros64, 0) :: (Merkle.zeros64, 0) :: (Merkle.zeros64, 0) :: (Merkle.zeros64, 0) :: [])) foldChainStep8)).trans (((foldPath_cons_zero "8ba6cb150cb9320be9d5a56d52fa677b3862db5f5c4e7b4695c5d9312379e42c" Merkle.zeros64 ((Merkle.zeros64, 0) :: (Merkle.zeros64, 0) :: (Merkle.zeros64, 0) :: (Merkle.zeros64, 0) :: (Merkle.zeros64, 0) :: (Merkle.zeros64, 0) :: [])).trans (congrArg (fun x => Merkle.foldPath x ((Merkle.zeros64, 0) :: (Merkle.zeros64, 0) :: (Merkle.zeros64, 0) :: (Merkle.zeros64, 0) :: (Merkle.zeros64, 0) :: (Merkle.zeros64, 0) :: [])) foldChainStep9)).trans (((foldPath_cons_zero "6af5ee8a2e3b40c36f397f5aa875e0a4aabb0c3f909385928f7fc7fe8bd03f0c" Merkle.zeros64 ((Merkle.zeros64, 0) :: (Merkle.zeros64, 0) :: (Merkle.zeros64, 0) :: (Merkle.zeros64, 0) :: (Merkle.zeros64, 0) :: [])).trans (congrArg (fun x => Merkle.foldPath x ((Merkle.zeros64, 0) :: (Merkle.zeros64, 0) :: (Merkle.zeros64, 0) :: (Merkle.zeros64, 0) :: (Merkle.zeros64, 0) :: [])) foldChainStep10)).trans (((foldPath_cons_zero "4525d7b7a77c9f64d8b58281a6f1d7d56aa62e70417cb1271b052ff82315c5d8" Merkle.zeros64 ((Merkle.zeros64, 0) :: (Merkle.zeros64, 0) :: (Merkle.zeros64, 0) :: (Merkle.zeros64, 0) :: [])).trans (congrArg (fun x => Merkle.foldPath x ((Merkle.zeros64, 0) :: (Merkle.zeros64, 0) :: (Merkle.zeros64, 0) :: (Merkle.zeros64, 0) :: [])) foldChainStep11)).trans (((foldPath_cons_zero "b080c4b517bf1d30799c5cef63e1b40182a8d39669ec0352603a106667f77d46" Merkle.zeros64 ((Merkle.zeros64, 0) :: (Merkle.zeros64, 0) :: (Merkle.zeros64, 0) :: [])).trans (congrArg (fun x => Merkle.foldPath x ((Merkle.zeros64, 0) :: (Merkle.zeros64, 0) :: (Merkle.zeros64, 0) :: [])) foldChainStep12)).trans (((foldPath_cons_zero "d0943463fd47f0d5e348e63b1bfccf143033a0c1b221bf1ed1bed47a48c9a707" Merkle.zeros64 ((Merkle.zeros64, 0) :: (Merkle.zeros64, 0) :: [])).trans (congrArg (fun x => Merkle.foldPath x ((Merkle.zeros64, 0) :: (Merkle.zeros64, 0) :: [])) foldChainStep13)).trans (((foldPath_cons_zero "14707448068a0954a210268d554bd18342bd492d8382cee2101f53f6a3939cf0" Merkle.zeros64 ((Merkle.zeros64, 0) :: [])).trans (congrArg (fun x => Merkle.foldPath x ((Merkle.zeros64, 0) :: [])) foldChainStep14)).trans (((foldPath_cons_zero "a0f23ad485616f8adb6e0dc47da627b2df1f5862a4ac8b3e4fbcc4114c4330ba" Merkle.zeros64 ([] : List (String × Nat))).trans (congrArg (fun x => Merkle.foldPath x ([] : List (String × Nat))) foldChainStep15)).trans (foldPath_nil "68e44a26cf044b8c641e9aaadf006de0b38bc5a6b2c59e0f45b019aeee5f30b6"))))))))))))))))
  have hne : (("68e44a26cf044b8c641e9aaadf006de0b38bc5a6b2c59e0f45b019aeee5f30b6" : String) == "fb8e20fc2e4c3f248c60c39bd652f3c1347298bb977b8b4d5903b85055620603") = false := by decide
  rw [hpath, abRootValue]
  show (Merkle.foldPath "a" (("b", 0) :: (Merkle.zeros64, 0) :: (Merkle.zeros64, 0) :: (Merkle.zeros64, 0) :: (Merkle.zeros64, 0) :: (Merkle.zeros64, 0) :: (Merkle.zeros64, 0) :: (Merkle.zeros64, 0) :: (Merkle.zeros64, 0) :: (Merkle.zeros64, 0) :: (Merkle.zeros64, 0) :: (Merkle.zeros64, 0) :: (Merkle.zeros64, 0) :: (Merkle.zeros64, 0) :: (Merkle.zeros64, 0) :: []) == "fb8e20fc2e4c3f248c60c39bd652f3c1347298bb977b8b4d5903b85055620603") = false
  rw [hfold]
  exact hne

/-- C6 amended: for every non-empty leaf list and in-range index, folding the
    UNPADDED prefix of the returned sibling path (its first `height` entries,
    one per level below the root — the rest is fixed zero-sibling padding to
    depth 15) against the leaf reproduces the root of the tree. -/
theorem C6_unpadded_path_verifies (L : List String) (i : Nat) (hi : i < L.length)
    (p : List (String × Nat))
    (hp : Merkle.getSha256Proof (Merkle.buildSha256Tree L) i = some p) :
    Merkle.verifyProof (L.getD i "")
      (p.take ((Merkle.buildSha256Tree L).tree.length - 1))
      (Merkle.buildSha256Tree L).root = true := by
  rw [Merkle.getSha256Proof_take L i p hp]
  unfold Merkle.verifyProof
  rw [Merkle.sha256_tree_complete L i hi]
  exact beq_self_eq_true _

/-- Witness for the amended C6 on two leaves at index 0. -/
theorem C6_unpadded_path_verifies_witness :
    0 < (["a", "b"] : List String).length ∧
    Merkle.verifyProof ((["a", "b"] : List String).getD 0 "")
      ((("b", 0) :: List.replicate 14 (Merkle.zeros64, 0)).take
        ((Merkle.buildSha256Tree ["a", "b"]).tree.length - 1))
      (Merkle.buildSha256Tree ["a", "b"]).root = true :=
  ⟨by decide, C6_unpadded_path_verifies ["a", "b"] 0 (by decide)
    (("b", 0) :: List.replicate 14 (Merkle.zeros64, 0)) (by decide)⟩

/-- C9 (consensus modelled from the spec): `pending` exactly when the total is
    below `min_sample`; with enough samples, `A` (resp. `B`) whenever the
    corresponding ratio is at least the 0.6 threshold — the boundary
    comparison is at-least — and `disputed` when both ratios fall short. -/
theorem C9_consensus_classification (ms a b : Nat) :
    (Backend.consensus (3/5) ms a b = .pending ↔ a + b < ms) ∧
    (ms ≤ a + b →
      (((3 : ℚ)/5 ≤ (a : ℚ) / ((a + b : Nat) : ℚ) →
          Backend.consensus (3/5) ms a b = .A) ∧
       ((3 : ℚ)/5 ≤ (b : ℚ) / ((a + b : Nat) : ℚ) →
          Backend.consensus (3/5) ms a b = .B) ∧
       ((a : ℚ) / ((a + b : Nat) : ℚ) < 3/5 → (b : ℚ) / ((a + b : Nat) : ℚ) < 3/5 →
          Backend.consensus (3/5) ms a b = .disputed))) := by
  unfold Backend.consensus
  constructor
  · by_cases h : a + b < ms
    · simp [h]
    · simp only [if_neg h]
      constructor
      · intro h2
        exfalso
        split at h2
        · exact Backend.ConsensusResult.noConfusion h2
        · split at h2
          · exact Backend.ConsensusResult.noConfusion h2
          · exact Backend.ConsensusResult.noConfusion h2
      · intro h2
        exact absurd h2 h
  · intro hms
    have hnp : ¬ (a + b < ms) := not_lt.mpr hms
    refine ⟨?_, ?_, ?_⟩
    · intro hA
      rw [if_neg hnp, if_pos hA]
    · intro hB
      have hAlt : ¬ ((3 : ℚ)/5 ≤ (a : ℚ) / ((a + b : Nat) : ℚ)) := by
        intro hA
        rcases Nat.eq_zero_or_pos (a + b) with h0 | hpos
        · rw [h0] at hB
          norm_num at hB
        · have ht : (0 : ℚ) < ((a + b : Nat) : ℚ) := by exact_mod_cast hpos
          have hcast : (a : ℚ) + (b : ℚ) = ((a + b : Nat) : ℚ) := by push_cast; ring
          have hsum : (a : ℚ) / ((a + b : Nat) : ℚ) + (b : ℚ) / ((a + b : Nat) : ℚ) = 1 := by
            rw [div_add_div_same, hcast, div_self (ne_of_gt ht)]
          linarith
      rw [if_neg hnp, if_neg hAlt, if_pos hB]
    · intro hA hB
      rw [if_neg hnp, if_neg (not_le.mpr hA), if_neg (not_le.mpr hB)]

/-- Witness for C9: the ratio 3/5 sits exactly on the 0.6 boundary and
    classifies as `A`; one extra required sample turns the same counts into
    `pending`. -/
theorem C9_consensus_classification_witness :
    Backend.consensus (3/5) 5 3 2 = .A ∧ Backend.consensus (3/5) 6 3 2 = .pending :=
  ⟨((C9_consensus_classification 5 3 2).2 (by norm_num)).1 (by norm_num),
   (C9_consensus_classification 6 3 2).1.mpr (by norm_num)⟩
